import Mathlib

/-!
Verification development for the `openclaw-onebot11-channelplugin` repository.

The TypeScript sources are shallowly embedded as executable Lean definitions:
pure functions become Lean functions, effects (file reads, HTTP responses,
clocks, SDK callbacks) become explicit parameters or oracle inputs, and
JavaScript strings are modelled as Lean `String`s (ASCII-faithful: `trim`,
`toLowerCase`, `\d` and friends are modelled on the ASCII fragment the
repository exercises).
-/

namespace OneBot11

/-! ## JavaScript string helpers -/

/-- Model of JS `String.prototype.trim` (ASCII whitespace fragment), written
structurally over the character list so that the kernel can evaluate it. -/
def jsTrim (s : String) : String :=
  ⟨((s.data.dropWhile Char.isWhitespace).reverse.dropWhile Char.isWhitespace).reverse⟩

/-- Model of JS `String.prototype.toLowerCase` (ASCII fragment). -/
def jsToLower (s : String) : String :=
  ⟨s.data.map Char.toLower⟩

/-- Kernel-evaluable `String.startsWith`. -/
def strStartsWith (s pre : String) : Bool :=
  pre.data.isPrefixOf s.data

/-- Kernel-evaluable `String.drop` (JS slicing is per code unit; the repository
only drops ASCII prefixes, where the two coincide). -/
def strDrop (s : String) (n : Nat) : String :=
  ⟨s.data.drop n⟩

/-- Worker of `splitOnChar` (the accumulator holds the current piece reversed). -/
def splitOnCharAux (sep : Char) : List Char → List Char → List (List Char)
  | [], acc => [acc.reverse]
  | c :: rest, acc =>
    if c = sep then acc.reverse :: splitOnCharAux sep rest []
    else splitOnCharAux sep rest (c :: acc)

/-- Model of JS `String.prototype.split` with a single-character separator. -/
def splitOnChar (sep : Char) (s : String) : List String :=
  (splitOnCharAux sep s.data []).map fun l => ⟨l⟩

/-- Substring occurrence test over character lists. -/
def listContainsSub : List Char → List Char → Bool
  | _, [] => true
  | [], _ :: _ => false
  | c :: rest, d :: sub => (d :: sub).isPrefixOf (c :: rest) || listContainsSub rest (d :: sub)

/-- Model of JS string truthiness combined with `?.trim()`: `value?.trim()`
followed by `if (token)`.  Returns the trimmed string when it is non-empty. -/
def truthyTrim (v : Option String) : Option String :=
  match v with
  | some s => let t := jsTrim s; if t = "" then none else some t
  | none => none

/-- Model of JS string truthiness without trimming: `a || b` on strings treats
`""` as falsy. -/
def truthyStr (v : Option String) : Option String :=
  match v with
  | some s => if s = "" then none else some s
  | none => none

/-! ## Token resolution (`src/token.ts`)

File reads are modelled by a function `fs : String → Option String`
(`none` models a thrown read error), the environment by
`env : Option String` (the value of `ONEBOT11_ACCESS_TOKEN`). -/

/-- Provenance tag of a resolved token (`OneBot11TokenSource`). -/
inductive TokenSource where
  | config
  | configFile
  | env
  | none
  deriving DecidableEq, Repr

/-- Result record of `resolveOneBot11Token`. -/
structure TokenResolution where
  token : String
  source : TokenSource
  deriving DecidableEq, Repr

/-- The credential fields of an account entry (`accessToken`, `accessTokenFile`);
the only fields of `accounts[id]` that `resolveOneBot11Token` reads. -/
structure TokenCreds where
  accessToken : Option String
  accessTokenFile : Option String
  deriving Repr

/-- The slice of `OneBot11Config` that token resolution reads: the base
credential fields plus the `accounts` map (modelled as an association list). -/
structure TokenConfig where
  accessToken : Option String
  accessTokenFile : Option String
  accounts : Option (List (String × TokenCreds))
  deriving Repr

/-- The SDK constant `DEFAULT_ACCOUNT_ID`.  Modelled from the spec: §3 fixes
the reserved id of the unnamed/top-level account to `"default"`. -/
def DEFAULT_ACCOUNT_ID : String :=
  "default"

/-- Lines 23–26 / 41–44 of `token.ts`: `config.accessToken?.trim()` with the
truthiness check, yielding a `"config"`-sourced token. -/
def tokenFromValue (v : Option String) : Option String :=
  truthyTrim v

/-- Lines 27–37 / 45–55 of `token.ts`: read `accessTokenFile` (trimmed, truthy),
read the file (read failures swallowed), trim the contents, succeed only when
the result is non-empty. -/
def tokenFromFile (fs : String → Option String) (v : Option String) : Option String :=
  match truthyTrim v with
  | some tokenFile =>
    match fs tokenFile with
    | some contents => let t := jsTrim contents; if t = "" then none else some t
    | none => none
  | none => none

/-- The account-scoped tiers (steps 1–2, lines 22–38 of `token.ts`). -/
def accountScopedToken (fs : String → Option String) (creds : TokenCreds) :
    Option TokenResolution :=
  match tokenFromValue creds.accessToken with
  | some t => some ⟨t, TokenSource.config⟩
  | Option.none =>
    match tokenFromFile fs creds.accessTokenFile with
    | some t => some ⟨t, TokenSource.configFile⟩
    | Option.none => Option.none

/-- The default-account tiers (lines 40–60 of `token.ts`): base `accessToken`,
base `accessTokenFile`, then `ONEBOT11_ACCESS_TOKEN` — all gated on
`isDefaultAccount`; otherwise falls to `{token: "", source: "none"}`. -/
def defaultTierToken (fs : String → Option String) (env : Option String)
    (config : Option TokenConfig) (isDefaultAccount : Bool) : TokenResolution :=
  if isDefaultAccount then
    match tokenFromValue (config.bind (·.accessToken)) with
    | some t => ⟨t, TokenSource.config⟩
    | Option.none =>
      match tokenFromFile fs (config.bind (·.accessTokenFile)) with
      | some t => ⟨t, TokenSource.configFile⟩
      | Option.none =>
        match truthyTrim env with
        | some t => ⟨t, TokenSource.env⟩
        | Option.none => ⟨"", TokenSource.none⟩
  else
    ⟨"", TokenSource.none⟩

/-- Embedding of `resolveOneBot11Token` (`src/token.ts`, lines 10–63).
`accountId = none` models an absent/`null` argument (covered by
`accountId ?? DEFAULT_ACCOUNT_ID`). -/
def resolveOneBot11Token (fs : String → Option String) (env : Option String)
    (config : Option TokenConfig) (accountId : Option String) : TokenResolution :=
  let resolvedAccountId := accountId.getD DEFAULT_ACCOUNT_ID
  let isDefaultAccount := resolvedAccountId == DEFAULT_ACCOUNT_ID
  let accountConfig : Option TokenCreds :=
    if resolvedAccountId != DEFAULT_ACCOUNT_ID then
      config.bind (fun c => (c.accounts.getD []).lookup resolvedAccountId)
    else
      Option.none
  match accountConfig.bind (accountScopedToken fs) with
  | some r => r
  | Option.none => defaultTierToken fs env config isDefaultAccount

/-- The account-scoped tiers only ever tag a token `"config"` or `"configFile"`. -/
theorem accountScopedToken_source (fs : String → Option String) (creds : TokenCreds)
    (r : TokenResolution) (h : accountScopedToken fs creds = some r) :
    r.source = TokenSource.config ∨ r.source = TokenSource.configFile := by
  unfold accountScopedToken at h
  rcases h1 : tokenFromValue creds.accessToken with _ | t
  · rw [h1] at h
    rcases h2 : tokenFromFile fs creds.accessTokenFile with _ | t2
    · rw [h2] at h; exact absurd h (by simp)
    · rw [h2] at h
      right
      rw [show r = ⟨t2, TokenSource.configFile⟩ from (Option.some.injEq _ _ ▸ h).symm]
  · rw [h1] at h
    left
    rw [show r = ⟨t, TokenSource.config⟩ from (Option.some.injEq _ _ ▸ h).symm]

/-- C1: token resolution for a named (non-default) account never returns a
token sourced from the environment variable, whatever the file system, the
environment, and the configuration contain. -/
theorem named_account_never_env (fs : String → Option String) (env : Option String)
    (config : Option TokenConfig) (a : String) (h : a ≠ DEFAULT_ACCOUNT_ID) :
    (resolveOneBot11Token fs env config (some a)).source ≠ TokenSource.env := by
  have hne : (a != DEFAULT_ACCOUNT_ID) = true := by simp [bne_iff_ne, h]
  have hbeq : (a == DEFAULT_ACCOUNT_ID) = false := by simp [h]
  unfold resolveOneBot11Token
  simp only [Option.getD_some, hne, if_true]
  rcases hacct : (config.bind (fun c => (c.accounts.getD []).lookup a)).bind
      (accountScopedToken fs) with _ | r
  · simp only [defaultTierToken, hbeq, Bool.false_eq_true, if_false]
    intro hc
    exact absurd hc (by simp)
  · rcases Option.bind_eq_some.mp hacct with ⟨creds, _, hr⟩
    rcases accountScopedToken_source fs creds r hr with hs | hs <;> rw [hs] <;> decide

/-- Witness for C1 at a concrete configuration: a named account `"work"` with
no credentials of its own, an unreadable token file, and the environment
variable set — the result still is not environment-sourced. -/
theorem named_account_never_env_witness :
    ("work" : String) ≠ DEFAULT_ACCOUNT_ID ∧
      (resolveOneBot11Token (fun _ => Option.none) (some "ENVTOKEN")
        (some ⟨Option.none, Option.none, some [("work", ⟨Option.none, some "/secrets/t"⟩)]⟩)
        (some "work")).source ≠ TokenSource.env :=
  ⟨by decide, named_account_never_env (fun _ => Option.none) (some "ENVTOKEN")
    (some ⟨Option.none, Option.none, some [("work", ⟨Option.none, some "/secrets/t"⟩)]⟩)
    "work" (by decide)⟩

/-- Counterexample to C2: a named account `"work"` with no account-scoped
credential does NOT fall back to the non-empty base `accessToken`; the code
(lines 40–60 of `token.ts` are gated on `isDefaultAccount`) returns
`{token: "", source: "none"}` instead of `{token: "base-token", source: "config"}`. -/
theorem named_account_base_fallback_counterexample :
    resolveOneBot11Token (fun _ => Option.none) Option.none
        (some ⟨some "base-token", Option.none, some [("work", ⟨Option.none, Option.none⟩)]⟩)
        (some "work") = ⟨"", TokenSource.none⟩ ∧
      (resolveOneBot11Token (fun _ => Option.none) Option.none
        (some ⟨some "base-token", Option.none, some [("work", ⟨Option.none, Option.none⟩)]⟩)
        (some "work")).source ≠ TokenSource.config := by
  constructor
  · rfl
  · decide

/-- C2 as amended: a non-default account whose account-scoped `accessToken`
and `accessTokenFile` tiers produced no token does not consult the base
(channel-level) credentials at all — resolution yields
`{token: "", source: "none"}`. -/
theorem named_account_no_base_fallback (fs : String → Option String)
    (env : Option String) (config : Option TokenConfig) (a : String)
    (h : a ≠ DEFAULT_ACCOUNT_ID)
    (hacct : (config.bind (fun c => (c.accounts.getD []).lookup a)).bind
      (accountScopedToken fs) = Option.none) :
    resolveOneBot11Token fs env config (some a) = ⟨"", TokenSource.none⟩ := by
  have hne : (a != DEFAULT_ACCOUNT_ID) = true := by simp [bne_iff_ne, h]
  have hbeq : (a == DEFAULT_ACCOUNT_ID) = false := by simp [h]
  unfold resolveOneBot11Token
  simp only [Option.getD_some, hne, if_true]
  rw [hacct]
  simp only [defaultTierToken, hbeq, Bool.false_eq_true, if_false]

/-- Witness for the amended C2 at a concrete configuration: base `accessToken`
set, named account `"work"` with empty credentials. -/
theorem named_account_no_base_fallback_witness :
    (("work" : String) ≠ DEFAULT_ACCOUNT_ID ∧
      ((some (⟨some "base-token", Option.none,
          some [("work", ⟨Option.none, Option.none⟩)]⟩ : TokenConfig)).bind
        (fun c => (c.accounts.getD []).lookup "work")).bind
        (accountScopedToken (fun _ => Option.none)) = Option.none) ∧
      resolveOneBot11Token (fun _ => Option.none) Option.none
        (some ⟨some "base-token", Option.none, some [("work", ⟨Option.none, Option.none⟩)]⟩)
        (some "work") = ⟨"", TokenSource.none⟩ :=
  ⟨⟨by decide, by rfl⟩,
    named_account_no_base_fallback (fun _ => Option.none) Option.none
      (some ⟨some "base-token", Option.none, some [("work", ⟨Option.none, Option.none⟩)]⟩)
      "work" (by decide) (by rfl)⟩

/-! ## Target parsing (`src/normalize.ts`) -/

/-- Model of the JS regex test `/^\d+$/` (`\d` is exactly `[0-9]`). -/
def isAllDigits (s : String) : Bool :=
  !s.data.isEmpty && s.data.all Char.isDigit

/-- Embedding of `normalizeId` (`normalize.ts`, lines 15–17): trim, then strip
one case-insensitive `onebot11:`/`ob11:` prefix. -/
def normalizeId (value : String) : String :=
  let t := jsTrim value
  if strStartsWith (jsToLower t) "onebot11:" then strDrop t 9
  else if strStartsWith (jsToLower t) "ob11:" then strDrop t 5
  else t

/-- Embedding of `normalizeOneBot11MessagingTarget` (`normalize.ts`,
lines 157–163): `none` models the `undefined` returned for blank input. -/
def normalizeOneBot11MessagingTarget (raw : String) : Option String :=
  let trimmed := jsTrim raw
  if trimmed = "" then Option.none
  else some (normalizeId trimmed)

/-- Model of the JS regex test `/^(private|group):\d+$/i`: the string splits at
a single colon into a case-insensitive `private`/`group` head and a non-empty
digit tail. -/
def regexTestPrefixedId (s : String) : Bool :=
  match splitOnChar ':' s with
  | [p, d] => (jsToLower p == "private" || jsToLower p == "group") && isAllDigits d
  | _ => false

/-- Model of the JS regex match `/^(private|group):(\d+)$/i` returning the two
capture groups. -/
def regexMatchPrefixedId (s : String) : Option (String × String) :=
  match splitOnChar ':' s with
  | [p, d] =>
    if (jsToLower p == "private" || jsToLower p == "group") && isAllDigits d then some (p, d)
    else Option.none
  | _ => Option.none

/-- The test regex succeeds exactly when the capturing regex matches. -/
theorem regexMatchPrefixedId_isSome (s : String) :
    (regexMatchPrefixedId s).isSome = regexTestPrefixedId s := by
  unfold regexMatchPrefixedId regexTestPrefixedId
  rcases splitOnChar ':' s with _ | ⟨p, _ | ⟨d, _ | _⟩⟩
  · rfl
  · rfl
  · by_cases hc : ((jsToLower p == "private" || jsToLower p == "group") && isAllDigits d) = true
    · simp [hc]
    · simp [hc]
  · rfl

/-- Chat kind of a parsed target (`"private" | "group"`; `private` is a Lean
keyword, hence `privateChat`). -/
inductive ChatType where
  | privateChat
  | group
  deriving DecidableEq, Repr

/-- Wire rendering of a chat type. -/
def ChatType.render : ChatType → String
  | ChatType.privateChat => "private"
  | ChatType.group => "group"

/-- Result of `parseOneBot11Target`; `explicit = false` models the variant
without the `explicit: true` field (bare numeric target). -/
structure ParsedTarget where
  chatType : ChatType
  id : String
  explicit : Bool
  deriving DecidableEq, Repr

/-- Embedding of `looksLikeOneBot11TargetId` (`normalize.ts`, lines 165–171);
the `if (!normalized)` truthiness test covers both `undefined` and `""`. -/
def looksLikeOneBot11TargetId (raw : String) : Bool :=
  match normalizeOneBot11MessagingTarget raw with
  | Option.none => false
  | some normalized =>
    if normalized = "" then false
    else regexTestPrefixedId normalized || isAllDigits normalized

/-- Embedding of `parseOneBot11Target` (`normalize.ts`, lines 173–193); thrown
errors are modelled with `Except.error`. -/
def parseOneBot11Target (raw : String) : Except String ParsedTarget :=
  match normalizeOneBot11MessagingTarget raw with
  | Option.none => Except.error "OneBot11 target is required"
  | some normalized =>
    if normalized = "" then Except.error "OneBot11 target is required"
    else
      match regexMatchPrefixedId normalized with
      | some (p, d) =>
        Except.ok ⟨if jsToLower p = "group" then ChatType.group else ChatType.privateChat, d, true⟩
      | Option.none =>
        if isAllDigits normalized then Except.ok ⟨ChatType.privateChat, normalized, false⟩
        else Except.error "OneBot11 target must be <id> or private:<id> or group:<id>"

/-- C10: `looksLikeOneBot11TargetId` accepts a raw string exactly when
`parseOneBot11Target` succeeds on it — both normalize identically and accept
the same target grammar. -/
theorem looksLike_iff_parse_ok (raw : String) :
    looksLikeOneBot11TargetId raw = true ↔ ∃ t, parseOneBot11Target raw = Except.ok t := by
  unfold looksLikeOneBot11TargetId parseOneBot11Target
  rcases normalizeOneBot11MessagingTarget raw with _ | n
  · simp
  · by_cases he : n = ""
    · simp [he]
    · simp only [if_neg he]
      rcases hm : regexMatchPrefixedId n with _ | ⟨p, d⟩
      · have ht : regexTestPrefixedId n = false := by
          rw [← regexMatchPrefixedId_isSome, hm]; rfl
        rw [ht]
        by_cases hd : isAllDigits n = true
        · simp [hd]
        · simp only [Bool.false_or]
          constructor
          · intro hcontra; exact absurd hcontra hd
          · rintro ⟨t, hok⟩
            rw [if_neg (by simpa using hd)] at hok
            exact absurd hok (by simp)
      · have ht : regexTestPrefixedId n = true := by
          rw [← regexMatchPrefixedId_isSome, hm]; rfl
        simp [ht]

/-! ## Inbound event normalization (`src/normalize.ts`)

Untyped JS values reaching `asTrimmedString` are modelled by `JsVal`
(string, number, or anything else); id-like wire fields (`user_id`,
`group_id`, `message_id`, `self_id`), which the wire model (§3) types as
string-or-number, by `IdVal`. -/

/-- An untyped JS value as far as `asTrimmedString` can observe it. -/
inductive JsVal where
  | str (s : String)
  | num (n : Int)
  | other
  deriving DecidableEq, Repr

/-- Embedding of `asTrimmedString` (`normalize.ts`, lines 19–28): a string is
trimmed and must be non-empty, a number is stringified, anything else yields
`undefined`.  `none` on the input models an absent field. -/
def asTrimmedString (value : Option JsVal) : Option String :=
  match value with
  | some (JsVal.str s) => let t := jsTrim s; if t = "" then Option.none else some t
  | some (JsVal.num n) => some (toString n)
  | some JsVal.other => Option.none
  | Option.none => Option.none

/-- A string-or-number wire id field. -/
inductive IdVal where
  | str (s : String)
  | num (n : Int)
  deriving DecidableEq, Repr

/-- JS `String(value)` on a string-or-number id. -/
def IdVal.render : IdVal → String
  | IdVal.str s => s
  | IdVal.num n => toString n

/-- The `data` record of a message segment, restricted to the keys the code
reads (`url`, `file`, `text`, `qq`). -/
structure SegData where
  url : Option JsVal := Option.none
  file : Option JsVal := Option.none
  text : Option JsVal := Option.none
  qq : Option JsVal := Option.none
  deriving DecidableEq, Repr

/-- A message segment (`OneBot11MessageSegment`); `type = none` models an
absent or non-string `type` (which never equals a string literal), `data =
none` an absent `data` record. -/
structure Segment where
  type : Option String := Option.none
  data : Option SegData := Option.none
  deriving DecidableEq, Repr

/-- The `message` field: a string, a segment array (`none` entries model
null/non-object array members), or anything else. -/
inductive MsgBody where
  | str (s : String)
  | arr (segs : List (Option Segment))
  | absent
  deriving DecidableEq, Repr

/-- The `sender` record (only `card` and `nickname` are read). -/
structure Sender where
  card : Option String := Option.none
  nickname : Option String := Option.none
  deriving DecidableEq, Repr

/-- The OneBot11 wire event (`OneBot11MessageEvent`), restricted to the fields
the normalizer reads.  `Option` models absent fields; `raw_message = none`
also covers a non-string `raw_message`. -/
structure MessageEvent where
  post_type : Option String := Option.none
  message_type : Option String := Option.none
  sub_type : Option String := Option.none
  time : Option Int := Option.none
  self_id : Option IdVal := Option.none
  user_id : Option IdVal := Option.none
  group_id : Option IdVal := Option.none
  message_id : Option IdVal := Option.none
  message : MsgBody := MsgBody.absent
  raw_message : Option String := Option.none
  sender : Option Sender := Option.none
  deriving DecidableEq, Repr

/-- Embedding of `resolveImageLocation` (`normalize.ts`, lines 30–44),
returning the `(url, path)` pair; at most one component is `some`. -/
def resolveImageLocation (url file : Option JsVal) : Option String × Option String :=
  match asTrimmedString url with
  | some u => (some u, Option.none)
  | Option.none =>
    match asTrimmedString file with
    | Option.none => (Option.none, Option.none)
    | some f =>
      if strStartsWith (jsToLower f) "http://" || strStartsWith (jsToLower f) "https://" then
        (some f, Option.none)
      else
        (Option.none, some f)

/-- Provenance of an extracted inbound image. -/
inductive ImageSource where
  | segment
  | cq
  deriving DecidableEq, Repr

/-- An extracted inbound image (`OneBot11InboundImage`). -/
structure InboundImage where
  index : Nat
  source : ImageSource
  url : Option String := Option.none
  path : Option String := Option.none
  deriving DecidableEq, Repr

/-- Embedding of `extractImagesFromSegments` (`normalize.ts`, lines 77–103):
scan a segment array for `image` segments with a resolvable location; `index`
is the segment's array position. -/
def extractImagesFromSegments (message : MessageEvent) : List InboundImage :=
  match message.message with
  | MsgBody.arr segs =>
    segs.enum.filterMap fun p =>
      match p.2 with
      | Option.none => Option.none
      | some seg =>
        if seg.type = some "image" then
          let d := seg.data.getD {}
          let loc := resolveImageLocation d.url d.file
          if loc.1.isNone && loc.2.isNone then Option.none
          else some ⟨p.1, ImageSource.segment, loc.1, loc.2⟩
        else Option.none
  | _ => []

/-- Worker of `cqScan` with a structural fuel argument (one unit per scan
step; every step strictly shortens the character list, so any fuel above the
list length is enough and the fuel never runs out in `cqScan`). -/
def cqScanFuel : Nat → List Char → List (String × String)
  | 0, _ => []
  | _ + 1, [] => []
  | fuel + 1, '[' :: 'C' :: 'Q' :: ':' :: rest =>
    if (rest.takeWhile fun c => c ≠ ',' && c ≠ ']').isEmpty then
      cqScanFuel fuel ('C' :: 'Q' :: ':' :: rest)
    else
      match rest.drop (rest.takeWhile fun c => c ≠ ',' && c ≠ ']').length with
      | ']' :: tail =>
        (⟨rest.takeWhile fun c => c ≠ ',' && c ≠ ']'⟩, "") :: cqScanFuel fuel tail
      | ',' :: tail2 =>
        match tail2.drop (tail2.takeWhile fun c => c ≠ ']').length with
        | ']' :: tail3 =>
          (⟨rest.takeWhile fun c => c ≠ ',' && c ≠ ']'⟩,
            ⟨tail2.takeWhile fun c => c ≠ ']'⟩) :: cqScanFuel fuel tail3
        | _ => cqScanFuel fuel ('C' :: 'Q' :: ':' :: rest)
      | _ => cqScanFuel fuel ('C' :: 'Q' :: ':' :: rest)
  | fuel + 1, _ :: rest => cqScanFuel fuel rest

/-- Deterministic model of the JS regex scan
`/\[CQ:([^,\]]+)(?:,([^\]]*))?\]/g` over `raw_message`: at a `[CQ:` opening,
the first capture is the maximal non-empty run without `,`/`]`, optionally
followed by `,` and a maximal run without `]`, then a closing `]`.  Failed
starts advance one character (backtracking cannot rescue a failed maximal
run); successful matches resume after the closing bracket, exactly like
`exec` with a sticky `lastIndex`.  The second component is
`match[2] ?? ""`. -/
def cqScan (l : List Char) : List (String × String) :=
  cqScanFuel (l.length + 1) l

set_option linter.unusedVariables true

/-- Assoc-list update modelling `out[key] = value` on a JS record (later
assignments to the same key overwrite, insertion order otherwise kept). -/
def insertParam (out : List (String × String)) (key value : String) :
    List (String × String) :=
  if out.any (fun p => p.1 == key) then
    out.map fun p => if p.1 == key then (key, value) else p
  else
    out ++ [(key, value)]

/-- Embedding of `parseCqParams` (`normalize.ts`, lines 46–61): split on `,`,
split each pair at its first `=` (skipped when missing or in first position),
trim key and value, skip blank ones. -/
def parseCqParams (raw : String) : List (String × String) :=
  (splitOnChar ',' raw).foldl
    (fun out pair =>
      let cs := pair.toList
      match cs.findIdx? (· = '=') with
      | Option.none => out
      | some 0 => out
      | some i =>
        let key := jsTrim ⟨cs.take i⟩
        let value := jsTrim ⟨cs.drop (i + 1)⟩
        if key = "" ∨ value = "" then out else insertParam out key value)
    []

/-- Property access on parsed CQ params (unique keys), as a `JsVal`. -/
def paramVal (params : List (String × String)) (k : String) : Option JsVal :=
  (params.lookup k).map JsVal.str

/-- Embedding of `extractImagesFromRawMessage` (`normalize.ts`,
lines 105–134): scan `raw_message` for CQ codes, keep `image` codes with a
resolvable location; `index` counts every CQ-code occurrence. -/
def extractImagesFromRawMessage (message : MessageEvent) : List InboundImage :=
  let rawMessage := message.raw_message.getD ""
  if rawMessage = "" then []
  else
    (cqScan rawMessage.data).enum.filterMap fun p =>
      let ty := jsToLower (jsTrim p.2.1)
      if ty = "image" then
        let params := parseCqParams p.2.2
        let loc := resolveImageLocation (paramVal params "url") (paramVal params "file")
        if loc.1.isSome || loc.2.isSome then some ⟨p.1, ImageSource.cq, loc.1, loc.2⟩
        else Option.none
      else Option.none

/-- The deduplication key of `dedupeImages`: `url + "\0" + path`, absent
fields as `""`. -/
def imageKey (img : InboundImage) : String :=
  img.url.getD "" ++ "\x00" ++ img.path.getD ""

/-- Worker of `dedupeImages` with the explicit `seen` key set. -/
def dedupeImagesAux : List InboundImage → List String → List InboundImage
  | [], _ => []
  | img :: rest, seen =>
    if seen.contains (imageKey img) then dedupeImagesAux rest seen
    else img :: dedupeImagesAux rest (imageKey img :: seen)

/-- Embedding of `dedupeImages` (`normalize.ts`, lines 63–75). -/
def dedupeImages (images : List InboundImage) : List InboundImage :=
  dedupeImagesAux images []

/-- Embedding of `extractInboundImages` (`normalize.ts`, lines 136–138). -/
def extractInboundImages (message : MessageEvent) : List InboundImage :=
  dedupeImages (extractImagesFromSegments message ++ extractImagesFromRawMessage message)

/-- Rendering of a single segment inside `renderOneBot11Text`'s `map`. -/
def renderSegment (seg? : Option Segment) : String :=
  match seg? with
  | Option.none => ""
  | some seg =>
    if seg.type = some "text" then
      match seg.data.bind (·.text) with
      | some (JsVal.str t) => t
      | _ => ""
    else if seg.type = some "at" then
      match seg.data.bind (·.qq) with
      | some (JsVal.str q) => "@" ++ q
      | some (JsVal.num n) => "@" ++ toString n
      | _ => ""
    else ""

/-- Embedding of `renderOneBot11Text` (`normalize.ts`, lines 195–227). -/
def renderOneBot11Text (message : MessageEvent) : String :=
  match truthyTrim message.raw_message with
  | some raw => raw
  | Option.none =>
    match message.message with
    | MsgBody.str s => jsTrim s
    | MsgBody.arr segs => jsTrim (String.join (segs.map renderSegment))
    | MsgBody.absent => ""

/-- Embedding of `detectMentionFromSegments` (`normalize.ts`, lines 140–155). -/
def detectMentionFromSegments (message : MessageEvent) (selfId : String) : Bool :=
  if selfId = "" then false
  else
    match message.message with
    | MsgBody.arr segs =>
      segs.any fun seg? =>
        match seg? with
        | Option.none => false
        | some seg =>
          seg.type == some "at" && asTrimmedString (seg.data.bind (·.qq)) == some selfId
    | _ => false

/-- Model of JS `String.prototype.includes`. -/
def jsIncludes (s sub : String) : Bool :=
  listContainsSub s.data sub.data

/-- The `senderId` intermediate of `parseOneBot11InboundEvent`
(`String(event.user_id).trim()`, `""` when absent). -/
def eventSenderId (event : MessageEvent) : String :=
  match event.user_id with
  | Option.none => ""
  | some v => jsTrim v.render

/-- The `chatType` intermediate of `parseOneBot11InboundEvent`. -/
def eventChatType (event : MessageEvent) : ChatType :=
  if event.message_type = some "group" then ChatType.group else ChatType.privateChat

/-- The `chatId` intermediate of `parseOneBot11InboundEvent` (`group_id` for
group messages, `user_id` otherwise). -/
def eventChatId (event : MessageEvent) : String :=
  match (if eventChatType event = ChatType.group then event.group_id else event.user_id) with
  | Option.none => ""
  | some v => jsTrim v.render

/-- The normalized inbound event (`ok` payload of `parseOneBot11InboundEvent`;
the `raw` back-reference is omitted as it is the input itself). -/
structure ParsedInboundEvent where
  chatType : ChatType
  chatId : String
  senderId : String
  senderName : Option String
  messageId : String
  timestampMs : Int
  text : String
  wasMentioned : Bool
  images : List InboundImage
  imageUrls : List String
  imagePaths : List String
  deriving DecidableEq, Repr

/-- Result union of `parseOneBot11InboundEvent`. -/
inductive ParseInboundResult where
  | ok (e : ParsedInboundEvent)
  | failed (reason : String)
  deriving DecidableEq, Repr

/-- Embedding of `parseOneBot11InboundEvent` (`normalize.ts`, lines 229–309).
`payload = none` models a null/non-object payload; `nowSec` models
`Math.floor(Date.now() / 1000)`. -/
def parseOneBot11InboundEvent (nowSec : Int) (payload : Option MessageEvent) :
    ParseInboundResult :=
  match payload with
  | Option.none => ParseInboundResult.failed "not an object"
  | some event =>
    if event.post_type ≠ some "message" then
      ParseInboundResult.failed "unsupported post_type"
    else if event.sub_type = some "group_increase" ∨ event.sub_type = some "group_decrease" then
      ParseInboundResult.failed "non-message subtype"
    else if eventSenderId event = "" then
      ParseInboundResult.failed "missing sender id"
    else if eventChatId event = "" then
      ParseInboundResult.failed "missing chat id"
    else
      let text := renderOneBot11Text event
      let images := extractInboundImages event
      if text = "" ∧ images.isEmpty then
        ParseInboundResult.failed "empty message"
      else
        let chatType := eventChatType event
        let chatId := eventChatId event
        let messageId := match event.message_id with
          | Option.none => ""
          | some v => v.render
        let timestampSec := match event.time with
          | some t => t
          | Option.none => nowSec
        let senderName := match event.sender with
          | Option.none => Option.none
          | some s => (truthyStr s.card).orElse fun _ => truthyStr s.nickname
        let selfId := match event.self_id with
          | Option.none => ""
          | some v => v.render
        let rawMessage := event.raw_message.getD ""
        let mentionToken := if selfId = "" then "" else "[CQ:at,qq=" ++ selfId ++ "]"
        let wasMentioned :=
          (mentionToken != "" && jsIncludes rawMessage mentionToken) ||
            detectMentionFromSegments event selfId
        ParseInboundResult.ok
          { chatType
            chatId
            senderId := eventSenderId event
            senderName
            messageId :=
              if messageId = "" then
                chatType.render ++ ":" ++ chatId ++ ":" ++ toString timestampSec
              else messageId
            timestampMs := timestampSec * 1000
            text
            wasMentioned
            images
            imageUrls := images.filterMap fun i =>
              match i.url with
              | some u => if u = "" then Option.none else some u
              | Option.none => Option.none
            imagePaths := images.filterMap fun i =>
              match i.path with
              | some q => if q = "" then Option.none else some q
              | Option.none => Option.none }

/-! ## Properties of image deduplication (C6) and event parsing (C5) -/

/-- Membership reading of `List.contains` on strings. -/
theorem string_contains_iff_mem (l : List String) (a : String) :
    l.contains a = true ↔ a ∈ l := by
  simp [List.contains]

/-- Deduplication only drops elements: the output is a sublist of the input. -/
theorem dedupeImagesAux_sublist (l : List InboundImage) :
    ∀ seen, (dedupeImagesAux l seen).Sublist l := by
  induction l with
  | nil => intro seen; simp [dedupeImagesAux]
  | cons img rest ih =>
    intro seen
    unfold dedupeImagesAux
    by_cases h : seen.contains (imageKey img) = true
    · rw [if_pos h]
      exact (ih seen).cons _
    · rw [if_neg h]
      exact (ih _).cons₂ _

/-- Keys of the deduplicated list are pairwise distinct and disjoint from the
already-seen key set. -/
theorem dedupeImagesAux_keys (l : List InboundImage) :
    ∀ seen : List String,
      ((dedupeImagesAux l seen).map imageKey).Nodup ∧
        ∀ k ∈ (dedupeImagesAux l seen).map imageKey, k ∉ seen := by
  induction l with
  | nil => intro seen; simp [dedupeImagesAux]
  | cons img rest ih =>
    intro seen
    unfold dedupeImagesAux
    by_cases h : seen.contains (imageKey img) = true
    · rw [if_pos h]
      exact ih seen
    · rw [if_neg h]
      obtain ⟨hnodup, hdisj⟩ := ih (imageKey img :: seen)
      refine ⟨?_, ?_⟩
      · simp only [List.map_cons, List.nodup_cons]
        exact ⟨fun hcontra => (hdisj _ hcontra) (List.mem_cons_self _ _), hnodup⟩
      · intro k hk
        simp only [List.map_cons, List.mem_cons] at hk
        rcases hk with rfl | hk
        · intro hcontra
          exact h ((string_contains_iff_mem seen _).mpr hcontra)
        · exact fun hcontra => (hdisj k hk) (List.mem_cons_of_mem _ hcontra)

/-- For a key not yet seen, the first occurrence in the deduplicated list is
the first occurrence in the input (hence source and index are preserved). -/
theorem dedupeImagesAux_find (l : List InboundImage) :
    ∀ (seen : List String) (k : String), k ∉ seen →
      (dedupeImagesAux l seen).find? (fun i => imageKey i == k) =
        l.find? (fun i => imageKey i == k) := by
  induction l with
  | nil => intro seen k _; rfl
  | cons img rest ih =>
    intro seen k hk
    unfold dedupeImagesAux
    by_cases h : seen.contains (imageKey img) = true
    · rw [if_pos h]
      have hne : ¬((fun i => imageKey i == k) img = true) := by
        simp only [beq_iff_eq]
        intro heq
        exact hk (heq ▸ (string_contains_iff_mem seen (imageKey img)).mp h)
      rw [@List.find?_cons_of_neg InboundImage (fun i => imageKey i == k) img rest hne]
      exact ih seen k hk
    · rw [if_neg h]
      by_cases hki : ((fun i => imageKey i == k) img = true)
      · rw [@List.find?_cons_of_pos InboundImage (fun i => imageKey i == k) img
            (dedupeImagesAux rest (imageKey img :: seen)) hki,
          @List.find?_cons_of_pos InboundImage (fun i => imageKey i == k) img rest hki]
      · rw [@List.find?_cons_of_neg InboundImage (fun i => imageKey i == k) img
            (dedupeImagesAux rest (imageKey img :: seen)) hki,
          @List.find?_cons_of_neg InboundImage (fun i => imageKey i == k) img rest hki]
        refine ih _ k ?_
        intro hcontra
        rcases List.mem_cons.mp hcontra with heq | hmem
        · exact hki (by simp [heq])
        · exact hk hmem

/-- C6: `extractInboundImages` deduplicates the concatenation of the
segment-extractor results followed by the CQ-code-extractor results by the
key `url + "\0" + path`: the output is a sublist of that concatenation, its
keys are pairwise distinct (an image referenced both ways appears exactly
once), and for every key the retained representative is the first occurrence
of that key in the concatenation — with its `source` and `index` intact. -/
theorem extract_images_dedupe_spec (msg : MessageEvent) :
    (extractInboundImages msg).Sublist
        (extractImagesFromSegments msg ++ extractImagesFromRawMessage msg) ∧
      ((extractInboundImages msg).map imageKey).Nodup ∧
      ∀ k, (extractInboundImages msg).find? (fun i => imageKey i == k) =
        (extractImagesFromSegments msg ++ extractImagesFromRawMessage msg).find?
          (fun i => imageKey i == k) := by
  unfold extractInboundImages dedupeImages
  refine ⟨dedupeImagesAux_sublist _ [], (dedupeImagesAux_keys _ []).1, fun k => ?_⟩
  exact dedupeImagesAux_find _ [] k (by simp)

/-- C5: once a payload has passed the post_type/sub_type/sender-id/chat-id
checks, `parseOneBot11InboundEvent` fails with `"empty message"` exactly when
the rendered text is empty and no images were extracted; with at least one
image an empty-text payload is accepted with `text = ""`. -/
theorem parse_empty_message_iff (nowSec : Int) (event : MessageEvent)
    (h1 : event.post_type = some "message")
    (h2 : event.sub_type ≠ some "group_increase")
    (h3 : event.sub_type ≠ some "group_decrease")
    (h4 : eventSenderId event ≠ "")
    (h5 : eventChatId event ≠ "") :
    (parseOneBot11InboundEvent nowSec (some event) =
        ParseInboundResult.failed "empty message" ↔
      renderOneBot11Text event = "" ∧ extractInboundImages event = []) ∧
      (extractInboundImages event ≠ [] → renderOneBot11Text event = "" →
        ∃ r, parseOneBot11InboundEvent nowSec (some event) = ParseInboundResult.ok r ∧
          r.text = "") := by
  have c1 : ¬(event.post_type ≠ some "message") := by simp [h1]
  have c2 : ¬(event.sub_type = some "group_increase" ∨
      event.sub_type = some "group_decrease") := by
    rintro (h | h)
    · exact h2 h
    · exact h3 h
  simp only [parseOneBot11InboundEvent]
  rw [if_neg c1, if_neg c2, if_neg h4, if_neg h5]
  by_cases hempty : renderOneBot11Text event = "" ∧ (extractInboundImages event).isEmpty
  · rw [if_pos hempty]
    refine ⟨⟨fun _ => ⟨hempty.1, List.isEmpty_iff.mp hempty.2⟩, fun _ => rfl⟩, ?_⟩
    intro hne _
    exact absurd (List.isEmpty_iff.mp hempty.2) hne
  · rw [if_neg hempty]
    refine ⟨⟨fun hcontra => absurd hcontra (by simp), ?_⟩, ?_⟩
    · intro hboth
      exact absurd ⟨hboth.1, List.isEmpty_iff.mpr hboth.2⟩ hempty
    · intro _ htext
      exact ⟨_, rfl, htext⟩

/-- Sample payload for the C5 witness: a single image segment. -/
def imageOnlySegment : Segment :=
  { type := some "image", data := some { url := some (JsVal.str "https://x/a.png") } }

/-- Sample payload for the C5 witness (continued): the event carrying only
`imageOnlySegment`. -/
def imageOnlyEvent : MessageEvent :=
  { post_type := some "message"
    user_id := some (IdVal.num 7)
    message := MsgBody.arr [some imageOnlySegment] }

/-- Witness for C5 at `imageOnlyEvent`: the checks hold and the image-only
payload with empty text is accepted. -/
theorem parse_empty_message_iff_witness :
    (imageOnlyEvent.post_type = some "message" ∧
      imageOnlyEvent.sub_type ≠ some "group_increase" ∧
      imageOnlyEvent.sub_type ≠ some "group_decrease" ∧
      eventSenderId imageOnlyEvent ≠ "" ∧
      eventChatId imageOnlyEvent ≠ "") ∧
    ((parseOneBot11InboundEvent 1700000000 (some imageOnlyEvent) =
        ParseInboundResult.failed "empty message" ↔
      renderOneBot11Text imageOnlyEvent = "" ∧ extractInboundImages imageOnlyEvent = []) ∧
      (extractInboundImages imageOnlyEvent ≠ [] → renderOneBot11Text imageOnlyEvent = "" →
        ∃ r, parseOneBot11InboundEvent 1700000000 (some imageOnlyEvent) =
          ParseInboundResult.ok r ∧ r.text = "")) :=
  ⟨⟨by decide, by decide, by decide, by decide, by decide⟩,
    parse_empty_message_iff 1700000000 imageOnlyEvent (by decide) (by decide) (by decide)
      (by decide) (by decide)⟩

/-! ## Outbound text sending (`src/send.ts` and `src/outbound/text.ts`)

Both files implement the same send routine (`outbound/text.ts` adds debug
logging and re-throw logging only).  The protocol is modelled by an oracle
`responses : Nat → ActionResponse` giving the envelope returned for the i-th
chunk; the trace of issued protocol calls (the `message` payload of each) is
returned alongside the result, and `nowMs` models `Date.now()`. -/

/-- The `data` member of an action envelope (`message_id` may be a number or a
string; `none` models absent/null). -/
structure ActionData where
  message_id : Option IdVal := Option.none
  deriving DecidableEq, Repr

/-- The OneBot11 action envelope (`OneBot11ActionResponse`). -/
structure ActionResponse where
  status : Option String := Option.none
  retcode : Option Int := Option.none
  data : Option ActionData := Option.none
  message : Option String := Option.none
  wording : Option String := Option.none
  deriving DecidableEq, Repr

/-- Result of an outbound send (`OneBot11SendResult`). -/
structure SendResult where
  messageId : String
  chatId : String
  deriving DecidableEq, Repr

/-- Failure detail of `ensureOneBot11ActionOk`: `wording`, else `message`,
else a `retcode` fallback (`||` is JS-falsy on strings). -/
def actionFailureDetail (r : ActionResponse) : String :=
  match truthyStr r.wording with
  | some w => w
  | Option.none =>
    match truthyStr r.message with
    | some m => m
    | Option.none =>
      "retcode=" ++ (match r.retcode with | some n => toString n | Option.none => "unknown")

/-- Embedding of `ensureOneBot11ActionOk` (`outbound/actions.ts` /
`ensureActionOk` in `send.ts`): a no-op on `status: "ok"`, an error otherwise. -/
def ensureOneBot11ActionOk (action : String) (r : ActionResponse) : Except String Unit :=
  if r.status = some "ok" then Except.ok ()
  else Except.error ("OneBot11 action " ++ action ++ " returned failure: " ++ actionFailureDetail r)

/-- The `message` payload of one chunk: a `[CQ:reply,id=...]` marker is
prefixed when a reply-to id is supplied (truthy after trim). -/
def chunkPayloadMessage (replyToId : Option String) (chunk : String) : String :=
  match truthyTrim replyToId with
  | some rid => "[CQ:reply,id=" ++ rid ++ "]" ++ chunk
  | Option.none => chunk

/-- The chunk loop of `sendMessageOneBot11`: send each chunk in order, fail on
the first non-ok envelope, keep the most recently reported `message_id` in the
accumulator (`lastMessageId`).  Returns the final accumulator and the trace of
sent payloads; `i` is the index into the response oracle. -/
def sendChunksLoop (action : String) (replyToId : Option String)
    (responses : Nat → ActionResponse) :
    List String → Nat → String → Except String String × List String
  | [], _, last => (Except.ok last, [])
  | chunk :: cs, i, last =>
    let msg := chunkPayloadMessage replyToId chunk
    match ensureOneBot11ActionOk action (responses i) with
    | Except.error e => (Except.error e, [msg])
    | Except.ok _ =>
      let last2 := match (responses i).data.bind (·.message_id) with
        | some v => v.render
        | Option.none => last
      let rec2 := sendChunksLoop action replyToId responses cs (i + 1) last2
      (rec2.1, msg :: rec2.2)

/-- Embedding of `sendMessageOneBot11` (`send.ts` lines 68–133,
`outbound/text.ts` lines 33–142) from the point where account, endpoint and
target are resolved: the blank-text guard, the chunk loop, and the final
synthetic-id substitution.  `chunks` is the output of the SDK markdown
chunker (an oracle input), `target` the parsed destination. -/
def sendMessageOneBot11 (nowMs : Int) (responses : Nat → ActionResponse)
    (target : ParsedTarget) (text : String) (chunks : List String)
    (replyToId : Option String) : Except String SendResult × List String :=
  if jsTrim text = "" then
    (Except.error "Message must be non-empty for OneBot11 sends", [])
  else
    let action := if target.chatType = ChatType.group then "send_group_msg" else "send_private_msg"
    match sendChunksLoop action replyToId responses chunks 0 "" with
    | (Except.error e, trace) => (Except.error e, trace)
    | (Except.ok lastId, trace) =>
      let mid :=
        if lastId = "" then
          target.chatType.render ++ ":" ++ target.id ++ ":" ++ toString nowMs
        else lastId
      (Except.ok ⟨mid, target.chatType.render ++ ":" ++ target.id⟩, trace)

/-- The rendered `message_id` values reported by the first `n` oracle
responses, in order. -/
def reportedIds (responses : Nat → ActionResponse) (i n : Nat) : List String :=
  (List.range' i n).filterMap fun j => ((responses j).data.bind (·.message_id)).map IdVal.render

/-- An ok envelope carrying a numeric `message_id`. -/
def respOkWithId (n : Int) : ActionResponse :=
  { status := some "ok", data := some { message_id := some (IdVal.num n) } }

/-- An ok envelope carrying no `message_id`. -/
def respOkNoId : ActionResponse :=
  { status := some "ok" }

/-- Response oracle of the C7 counterexample: the first chunk's envelope
reports id 5, every later one reports none. -/
def c7Responses : Nat → ActionResponse :=
  fun i => if i = 0 then respOkWithId 5 else respOkNoId

/-- Counterexample to C7 as stated: with two chunks where only the first
response carries a `message_id`, the returned id is `"5"` — the id of an
*earlier* chunk, not the id reported for the last chunk (there is none) and
not the synthetic id either (a chunk did carry an id). -/
theorem send_messageId_last_chunk_counterexample :
    (sendMessageOneBot11 1700000000000 c7Responses ⟨ChatType.group, "1", true⟩ "hello"
        ["a", "b"] Option.none).1 = Except.ok ⟨"5", "group:1"⟩ ∧
      (c7Responses 1).data.bind (fun d => d.message_id) = Option.none ∧
      ("5" : String) ≠ "group:1:1700000000000" := by
  refine ⟨by rfl, by rfl, by decide⟩

/-- Auxiliary: `getLast?` of a cons in terms of the tail. -/
theorem getLast?_cons_eq {α : Type} (a : α) (l : List α) :
    (a :: l).getLast? = some (match l.getLast? with | some x => x | Option.none => a) := by
  induction l generalizing a with
  | nil => rfl
  | cons b l ih =>
    rw [List.getLast?_cons_cons, ih b]

/-- The chunk loop returns, on success, the last reported id (falling back to
the accumulator when no response in range reported one). -/
theorem sendChunksLoop_ok (action : String) (replyToId : Option String)
    (responses : Nat → ActionResponse) :
    ∀ (cs : List String) (i : Nat) (acc v : String),
      (sendChunksLoop action replyToId responses cs i acc).1 = Except.ok v →
      v = (match (reportedIds responses i cs.length).getLast? with
           | some s => s
           | Option.none => acc) := by
  intro cs
  induction cs with
  | nil =>
    intro i acc v h
    have hacc : acc = v := by simpa [sendChunksLoop] using h
    simp [reportedIds, ← hacc]
  | cons chunk cs ih =>
    intro i acc v h
    simp only [sendChunksLoop] at h
    rcases he : ensureOneBot11ActionOk action (responses i) with e | u
    · rw [he] at h
      exact absurd h (by simp)
    · rw [he] at h
      simp only at h
      have hrep : reportedIds responses i (chunk :: cs).length
          = (match ((responses i).data.bind (·.message_id)).map IdVal.render with
             | some b => b :: reportedIds responses (i + 1) cs.length
             | Option.none => reportedIds responses (i + 1) cs.length) := by
        simp only [reportedIds, List.length_cons, List.range']
        rw [List.filterMap_cons]
        rcases ((responses i).data.bind (·.message_id)).map IdVal.render with _ | b <;> rfl
      rcases hid : (responses i).data.bind (·.message_id) with _ | idv
      · rw [hid] at h
        rw [ih (i + 1) acc v h, hrep, hid, Option.map_none']
      · rw [hid] at h
        rw [ih (i + 1) idv.render v h, hrep, hid, Option.map_some']
        rw [getLast?_cons_eq]
        rcases (reportedIds responses (i + 1) cs.length).getLast? with _ | x <;> rfl

/-- C7 as amended: a blank (empty or whitespace-only) text fails with the
"message must be non-empty" error before any protocol call is issued (empty
trace); a successful send returns as `messageId` the most recently reported
`message_id` over all chunk responses, or, when no response carried one (or
the last reported one rendered empty), the synthetic
`"<chatType>:<id>:<epochMillis>"`; `chatId` is `"<chatType>:<id>"`. -/
theorem send_result_spec (nowMs : Int) (responses : Nat → ActionResponse)
    (target : ParsedTarget) (text : String) (chunks : List String)
    (replyToId : Option String) :
    (jsTrim text = "" →
      sendMessageOneBot11 nowMs responses target text chunks replyToId
        = (Except.error "Message must be non-empty for OneBot11 sends", [])) ∧
    (∀ r, (sendMessageOneBot11 nowMs responses target text chunks replyToId).1
        = Except.ok r →
      r.messageId =
        (let s := (reportedIds responses 0 chunks.length).getLast?.getD ""
         if s = "" then target.chatType.render ++ ":" ++ target.id ++ ":" ++ toString nowMs
         else s) ∧
      r.chatId = target.chatType.render ++ ":" ++ target.id) := by
  constructor
  · intro hblank
    simp only [sendMessageOneBot11, if_pos hblank]
  · intro r hok
    by_cases hblank : jsTrim text = ""
    · rw [show sendMessageOneBot11 nowMs responses target text chunks replyToId
          = (Except.error "Message must be non-empty for OneBot11 sends", []) from by
            simp only [sendMessageOneBot11, if_pos hblank]] at hok
      exact absurd hok (by simp)
    · simp only [sendMessageOneBot11, if_neg hblank] at hok
      rcases hloop : sendChunksLoop
          (if target.chatType = ChatType.group then "send_group_msg" else "send_private_msg")
          replyToId responses chunks 0 "" with ⟨res, trace⟩
      rcases res with e | lastId
      · rw [hloop] at hok
        exact absurd hok (by simp)
      · rw [hloop] at hok
        simp only [Except.ok.injEq] at hok
        have hv : lastId = (match (reportedIds responses 0 chunks.length).getLast? with
            | some s => s
            | Option.none => "") := by
          refine sendChunksLoop_ok
            (if target.chatType = ChatType.group then "send_group_msg" else "send_private_msg")
            replyToId responses chunks 0 "" lastId ?_
          rw [hloop]
        subst hok
        refine ⟨?_, rfl⟩
        have hg : (reportedIds responses 0 chunks.length).getLast?.getD "" = lastId := by
          rw [hv]
          rcases (reportedIds responses 0 chunks.length).getLast? with _ | s <;> rfl
        simp only [hg]

/-- Witness for the amended C7: a whitespace-only text fails with the
non-empty error and an empty trace (no protocol call), and a one-chunk send
whose response reports no id returns the synthetic id. -/
theorem send_result_spec_witness :
    (jsTrim "  " = "" ∧
      sendMessageOneBot11 123 (fun _ => respOkNoId) ⟨ChatType.privateChat, "2", false⟩ "  "
        [] Option.none = (Except.error "Message must be non-empty for OneBot11 sends", [])) ∧
      (sendMessageOneBot11 123 (fun _ => respOkNoId) ⟨ChatType.privateChat, "2", false⟩ "hi"
        ["hi"] Option.none).1 = Except.ok ⟨"private:2:123", "private:2"⟩ :=
  ⟨⟨by decide,
      (send_result_spec 123 (fun _ => respOkNoId) ⟨ChatType.privateChat, "2", false⟩ "  "
        [] Option.none).1 (by decide)⟩,
    by rfl⟩

/-! ## Outbound adapter media fallback (`src/outbound/adapter.ts`)

`sendFileOneBot11` is modelled by an oracle `upload : Except String Unit`
(the outcome of the upload pipeline), `sendMessageOneBot11` by an oracle
`sendText : String → Except String SendResult`.  Each model returns the trace
of texts handed to `sendMessageOneBot11`. -/

/-- The outbound result union (`channel` plus the spread `SendResult`). -/
structure AdapterResult where
  channel : String
  messageId : String
  chatId : String
  deriving DecidableEq, Repr

/-- Embedding of `attachmentFallbackText` (`outbound/adapter.ts`, lines
16–18). -/
def attachmentFallbackText (text mediaUrl : String) : String :=
  if jsTrim text ≠ "" then text ++ "\n\nAttachment: " ++ mediaUrl
  else "Attachment: " ++ mediaUrl

/-- The catch-block of `sendMediaWithFallback`: send the attachment-note text;
`pre` is the trace accumulated before the failure that was caught. -/
def mediaFallbackSend (sendText : String → Except String SendResult)
    (text mediaUrl : String) (pre : List String) :
    Except String AdapterResult × List String :=
  let fb := attachmentFallbackText text mediaUrl
  match sendText fb with
  | Except.ok r => (Except.ok ⟨"onebot11", r.messageId, r.chatId⟩, pre ++ [fb])
  | Except.error e => (Except.error e, pre ++ [fb])

/-- Embedding of `sendMediaWithFallback` (`outbound/adapter.ts`, lines
20–97): upload, then send the caption separately when non-blank (returning
the caption send's result), else return a synthetic `file:` id; any failure
in the try-block (upload or caption send) falls into the catch-block, which
sends the caption with a literal `"Attachment: <url>"` note appended. -/
def sendMediaWithFallback (nowMs : Int) (upload : Except String Unit)
    (sendText : String → Except String SendResult) (target text mediaUrl : String) :
    Except String AdapterResult × List String :=
  match upload with
  | Except.ok _ =>
    if jsTrim text ≠ "" then
      match sendText text with
      | Except.ok cap => (Except.ok ⟨"onebot11", cap.messageId, cap.chatId⟩, [text])
      | Except.error _ => mediaFallbackSend sendText text mediaUrl [text]
    else
      (Except.ok ⟨"onebot11", "file:" ++ toString nowMs, target⟩, [])
  | Except.error _ => mediaFallbackSend sendText text mediaUrl []

/-- Embedding of the adapter's `sendMedia` (`outbound/adapter.ts`, lines
224–280): with a falsy media URL it is a plain text send; otherwise it
delegates to `sendMediaWithFallback` (the surrounding try/catch only logs and
re-throws). -/
def adapterSendMedia (nowMs : Int) (upload : Except String Unit)
    (sendText : String → Except String SendResult) (target text : String)
    (mediaUrl : Option String) : Except String AdapterResult × List String :=
  match truthyStr mediaUrl with
  | Option.none =>
    (match sendText text with
     | Except.ok r => (Except.ok ⟨"onebot11", r.messageId, r.chatId⟩, [text])
     | Except.error e => (Except.error e, [text]))
  | some url => sendMediaWithFallback nowMs upload sendText target text url

/-- C4: when the upload path fails, `sendMedia` performs exactly one text send
— the attachment-note fallback, whose content is the caption (when non-blank)
followed by the literal `"Attachment: "` and the media URL — and returns that
send's message id, never the synthetic `file:` id. -/
theorem sendMedia_upload_failure_fallback (nowMs : Int) (err : String)
    (sendText : String → Except String SendResult) (target text url : String)
    (r : SendResult) (hurl : url ≠ "")
    (hsend : sendText (attachmentFallbackText text url) = Except.ok r) :
    adapterSendMedia nowMs (Except.error err) sendText target text (some url)
        = (Except.ok ⟨"onebot11", r.messageId, r.chatId⟩, [attachmentFallbackText text url]) ∧
      (∃ pre, attachmentFallbackText text url = pre ++ ("Attachment: " ++ url)) ∧
      (jsTrim text ≠ "" → attachmentFallbackText text url = text ++ "\n\nAttachment: " ++ url) := by
  refine ⟨?_, ?_, ?_⟩
  · simp only [adapterSendMedia, truthyStr, if_neg hurl, sendMediaWithFallback,
      mediaFallbackSend, hsend]
    rfl
  · unfold attachmentFallbackText
    by_cases ht : jsTrim text ≠ ""
    · rw [if_pos ht]
      refine ⟨text ++ "\n\n", ?_⟩
      have hlit : ("\n\n" : String) ++ "Attachment: " = "\n\nAttachment: " := by rfl
      rw [String.append_assoc, String.append_assoc text ("\n\n" : String),
        ← String.append_assoc ("\n\n" : String) "Attachment: " url, hlit]
    · rw [if_neg ht]
      exact ⟨"", by rw [String.empty_append]⟩
  · intro ht
    unfold attachmentFallbackText
    rw [if_pos ht]

/-- Witness for C4 at a concrete failed upload: caption `"cap"`, URL
`"https://x/f.png"`, fallback send succeeding with id `"99"`. -/
theorem sendMedia_upload_failure_fallback_witness :
    (("https://x/f.png" : String) ≠ "" ∧
      (fun _ => (Except.ok ⟨"99", "group:1"⟩ : Except String SendResult))
          (attachmentFallbackText "cap" "https://x/f.png")
        = (Except.ok ⟨"99", "group:1"⟩ : Except String SendResult)) ∧
      adapterSendMedia 777 (Except.error "upload failed")
          (fun _ => (Except.ok ⟨"99", "group:1"⟩ : Except String SendResult)) "group:1" "cap"
          (some "https://x/f.png")
        = (Except.ok ⟨"onebot11", "99", "group:1"⟩,
            [attachmentFallbackText "cap" "https://x/f.png"]) :=
  ⟨⟨by decide, by rfl⟩,
    (sendMedia_upload_failure_fallback 777 "upload failed"
      (fun _ => (Except.ok ⟨"99", "group:1"⟩ : Except String SendResult)) "group:1" "cap"
      "https://x/f.png" ⟨"99", "group:1"⟩ (by decide) (by rfl)).1⟩

/-! ## SSE client (`sse-client.ts`, provided as `src/unnamed/part_010`)

The WHATWG `URL` object is modelled on the `http:`/`https:` fragment the
channel uses: scheme and lowercased host (no `/`, `?`, `#`), a pathname that
always starts with `/` (an empty path serializes to `/`), and an opaque
query/fragment suffix; `toString` concatenates the pieces, matching the
WHATWG serialization on this fragment. -/

/-- The parsed-URL model (the members of `new URL(...)` the code reads, plus
the serialization remainder). -/
structure UrlModel where
  scheme : String
  host : String
  pathname : String
  suffix : String
  deriving DecidableEq, Repr

/-- Serialization (`URL.prototype.toString`). -/
def UrlModel.render (u : UrlModel) : String :=
  u.scheme ++ "://" ++ u.host ++ u.pathname ++ u.suffix

/-- Split the remainder after the host into `(pathname, suffix)`: an empty
remainder or one starting with `?`/`#` yields pathname `/`. -/
def parsePathSuffix : List Char → List Char × List Char
  | [] => (['/'], [])
  | '/' :: rest =>
    let p := rest.takeWhile fun c => c ≠ '?' && c ≠ '#'
    ('/' :: p, rest.drop p.length)
  | c :: rest => (['/'], c :: rest)

/-- Host predicate of the URL parser: the host runs to the first `/`, `?` or
`#`. -/
def isHostChar (c : Char) : Bool :=
  c ≠ '/' && c ≠ '?' && c ≠ '#'

/-- Host/path/suffix split after a recognized scheme. -/
def parseAfterScheme (scheme : String) (rest : List Char) : Option UrlModel :=
  if (rest.takeWhile isHostChar).isEmpty then Option.none
  else
    some ⟨scheme, ⟨(rest.takeWhile isHostChar).map Char.toLower⟩,
      ⟨(parsePathSuffix (rest.drop (rest.takeWhile isHostChar).length)).1⟩,
      ⟨(parsePathSuffix (rest.drop (rest.takeWhile isHostChar).length)).2⟩⟩

/-- Model of `new URL(s)` for `http:`/`https:` URLs; `none` models a thrown
`TypeError`. -/
def parseHttpUrl (s : String) : Option UrlModel :=
  if strStartsWith (jsToLower s) "http://" then parseAfterScheme "http" (s.data.drop 7)
  else if strStartsWith (jsToLower s) "https://" then parseAfterScheme "https" (s.data.drop 8)
  else Option.none

/-- Embedding of `normalizeSseBaseUrl` (`sse-client.ts`, lines 16–26): trim,
round-trip through `new URL` when it parses, else keep the trimmed string. -/
def normalizeSseBaseUrl (raw : String) : String :=
  let trimmed := jsTrim raw
  if trimmed = "" then ""
  else
    match parseHttpUrl trimmed with
    | some u => u.render
    | Option.none => trimmed

/-- Model of `normalized.replace(/\/$/, "")`: strip one trailing slash. -/
def stripTrailingSlash (s : String) : String :=
  match s.data.getLast? with
  | some '/' => ⟨s.data.dropLast⟩
  | _ => s

/-- JS `Set` insertion followed by `Array.from`: append when absent. -/
def insertUnique (l : List String) (x : String) : List String :=
  if l.contains x then l else l ++ [x]

/-- The candidate set construction of `buildOneBot11SseUrlCandidates` given
the outcome of the `try { new URL(normalized) }` block: the normalized URL
first, then — only for a root (or empty) pathname — the four probe paths
appended to the trailing-slash-stripped base, deduplicated in insertion
order; a parse failure keeps the normalized URL alone. -/
def buildFromParsed (normalized : String) : Option UrlModel → List String
  | some parsed =>
    if (if parsed.pathname = "" then "/" else parsed.pathname) = "/" then
      insertUnique (insertUnique (insertUnique (insertUnique
        [normalized]
        (stripTrailingSlash normalized ++ "/_events"))
        (stripTrailingSlash normalized ++ "/events"))
        (stripTrailingSlash normalized ++ "/event"))
        (stripTrailingSlash normalized ++ "/sse")
    else
      [normalized]
  | Option.none => [normalized]

/-- Embedding of `buildOneBot11SseUrlCandidates` (`sse-client.ts`, lines
28–49). -/
def buildOneBot11SseUrlCandidates (url : String) : List String :=
  if normalizeSseBaseUrl url = "" then []
  else buildFromParsed (normalizeSseBaseUrl url) (parseHttpUrl (normalizeSseBaseUrl url))

/-- Length of a stripped string: unchanged, or one less when a trailing slash
was removed. -/
theorem stripTrailingSlash_length (s : String) :
    (stripTrailingSlash s).length = s.length ∨
      (stripTrailingSlash s).length + 1 = s.length := by
  unfold stripTrailingSlash
  split
  next heq =>
    right
    have hne : s.data ≠ [] := by
      intro h
      rw [h] at heq
      exact absurd heq (by simp)
    show s.data.dropLast.length + 1 = s.data.length
    rw [List.length_dropLast]
    have := List.length_pos.mpr hne
    omega
  next =>
    left
    rfl

/-- `insertUnique` appends a genuinely new element. -/
theorem insertUnique_not_mem (l : List String) (x : String) (h : x ∉ l) :
    insertUnique l x = l ++ [x] := by
  unfold insertUnique
  rw [if_neg]
  intro hc
  exact h ((string_contains_iff_mem l x).mp hc)

/-- The pathname produced by `parsePathSuffix` always starts with `/`. -/
theorem parsePathSuffix_head (l : List Char) :
    ∃ p, (parsePathSuffix l).1 = '/' :: p := by
  unfold parsePathSuffix
  split
  · exact ⟨[], rfl⟩
  · exact ⟨_, rfl⟩
  · exact ⟨[], rfl⟩

/-- A URL parsed by `parseAfterScheme` has a non-empty pathname. -/
theorem parseAfterScheme_pathname_ne (scheme : String) (rest : List Char)
    (u : UrlModel) (h : parseAfterScheme scheme rest = some u) : u.pathname ≠ "" := by
  unfold parseAfterScheme at h
  split at h
  · exact absurd h (by simp)
  · simp only [Option.some.injEq] at h
    obtain ⟨p, hp⟩ := parsePathSuffix_head
      (rest.drop (rest.takeWhile isHostChar).length)
    rw [← h]
    simp only [ne_eq]
    intro hcontra
    have hdata : ('/' :: p) = ([] : List Char) := by
      rw [← hp]
      exact congrArg String.data hcontra
    exact absurd hdata (by simp)

/-- A URL parsed by `parseHttpUrl` has a non-empty pathname. -/
theorem parseHttpUrl_pathname_ne (s : String) (u : UrlModel)
    (h : parseHttpUrl s = some u) : u.pathname ≠ "" := by
  unfold parseHttpUrl at h
  split at h
  · exact parseAfterScheme_pathname_ne _ _ _ h
  · split at h
    · exact parseAfterScheme_pathname_ne _ _ _ h
    · exact absurd h (by simp)

/-- The five root-endpoint candidates are pairwise distinct (by length), so
the `Set` deduplication keeps all of them in insertion order. -/
theorem insertUnique_chain (n b : String)
    (hb : b.length = n.length ∨ b.length + 1 = n.length) :
    insertUnique (insertUnique (insertUnique (insertUnique [n] (b ++ "/_events"))
        (b ++ "/events")) (b ++ "/event")) (b ++ "/sse")
      = [n, b ++ "/_events", b ++ "/events", b ++ "/event", b ++ "/sse"] := by
  have hlen : ∀ t : String, (b ++ t).length = b.length + t.length :=
    fun t => String.length_append b t
  have hbn : ∀ t : String, 2 ≤ t.length → b ++ t ≠ n := by
    intro t ht hc
    have hL := congrArg String.length hc
    rw [hlen] at hL
    rcases hb with h | h <;> omega
  have hbb : ∀ a a2 : String, a.length ≠ a2.length → b ++ a ≠ b ++ a2 := by
    intro a a2 ha hc
    have hL := congrArg String.length hc
    rw [hlen, hlen] at hL
    omega
  have h1 : b ++ "/_events" ∉ [n] := by
    simp only [List.mem_singleton]
    exact hbn _ (by decide)
  have h2 : b ++ "/events" ∉ [n] ++ [b ++ "/_events"] := by
    simp only [List.mem_append, List.mem_singleton]
    intro hmem
    rcases hmem with h | h
    · exact hbn _ (by decide) h
    · exact hbb "/events" "/_events" (by decide) h
  have h3 : b ++ "/event" ∉ ([n] ++ [b ++ "/_events"]) ++ [b ++ "/events"] := by
    simp only [List.mem_append, List.mem_singleton]
    intro hmem
    rcases hmem with (h | h) | h
    · exact hbn _ (by decide) h
    · exact hbb "/event" "/_events" (by decide) h
    · exact hbb "/event" "/events" (by decide) h
  have h4 : b ++ "/sse" ∉ (([n] ++ [b ++ "/_events"]) ++ [b ++ "/events"]) ++ [b ++ "/event"] := by
    simp only [List.mem_append, List.mem_singleton]
    intro hmem
    rcases hmem with ((h | h) | h) | h
    · exact hbn _ (by decide) h
    · exact hbb "/sse" "/_events" (by decide) h
    · exact hbb "/sse" "/events" (by decide) h
    · exact hbb "/sse" "/event" (by decide) h
  rw [insertUnique_not_mem [n] (b ++ "/_events") h1]
  rw [insertUnique_not_mem ([n] ++ [b ++ "/_events"]) (b ++ "/events") h2]
  rw [insertUnique_not_mem (([n] ++ [b ++ "/_events"]) ++ [b ++ "/events"]) (b ++ "/event") h3]
  rw [insertUnique_not_mem ((([n] ++ [b ++ "/_events"]) ++ [b ++ "/events"]) ++ [b ++ "/event"])
    (b ++ "/sse") h4]
  simp

/-- C8: for a configured SSE URL that parses, a root pathname (`/`, covering
an empty path, which normalizes to `/`) yields exactly the five candidates in
order — the normalized URL, then `<base>/_events`, `<base>/events`,
`<base>/event`, `<base>/sse` with the trailing slash stripped from the base —
while a non-root pathname yields exactly the normalized URL alone. -/
theorem sse_candidates_spec (s : String) (u : UrlModel)
    (hp : parseHttpUrl (normalizeSseBaseUrl s) = some u) :
    (u.pathname = "/" →
      buildOneBot11SseUrlCandidates s =
        [normalizeSseBaseUrl s,
          stripTrailingSlash (normalizeSseBaseUrl s) ++ "/_events",
          stripTrailingSlash (normalizeSseBaseUrl s) ++ "/events",
          stripTrailingSlash (normalizeSseBaseUrl s) ++ "/event",
          stripTrailingSlash (normalizeSseBaseUrl s) ++ "/sse"]) ∧
    (u.pathname ≠ "/" →
      buildOneBot11SseUrlCandidates s = [normalizeSseBaseUrl s]) := by
  have hne : normalizeSseBaseUrl s ≠ "" := by
    intro h
    rw [h] at hp
    rw [show parseHttpUrl "" = (Option.none : Option UrlModel) from rfl] at hp
    exact absurd hp (by simp)
  have hb : (stripTrailingSlash (normalizeSseBaseUrl s)).length
        = (normalizeSseBaseUrl s).length ∨
      (stripTrailingSlash (normalizeSseBaseUrl s)).length + 1
        = (normalizeSseBaseUrl s).length :=
    stripTrailingSlash_length (normalizeSseBaseUrl s)
  constructor
  · intro hpath
    unfold buildOneBot11SseUrlCandidates
    rw [if_neg hne, hp]
    simp only [buildFromParsed, hpath]
    rw [if_neg (by decide : ¬("/" : String) = ""), if_pos rfl]
    exact insertUnique_chain (normalizeSseBaseUrl s)
      (stripTrailingSlash (normalizeSseBaseUrl s)) hb
  · intro hpath
    unfold buildOneBot11SseUrlCandidates
    rw [if_neg hne, hp]
    simp only [buildFromParsed]
    rw [if_neg (parseHttpUrl_pathname_ne _ _ hp), if_neg hpath]

/-- Witness for C8 at the root URL of the repository's own SSE test:
`" http://127.0.0.1:3000/ "`. -/
theorem sse_candidates_spec_witness :
    parseHttpUrl (normalizeSseBaseUrl " http://127.0.0.1:3000/ ")
        = some ⟨"http", "127.0.0.1:3000", "/", ""⟩ ∧
      (("/" : String) = "/" →
        buildOneBot11SseUrlCandidates " http://127.0.0.1:3000/ " =
          [normalizeSseBaseUrl " http://127.0.0.1:3000/ ",
            stripTrailingSlash (normalizeSseBaseUrl " http://127.0.0.1:3000/ ") ++ "/_events",
            stripTrailingSlash (normalizeSseBaseUrl " http://127.0.0.1:3000/ ") ++ "/events",
            stripTrailingSlash (normalizeSseBaseUrl " http://127.0.0.1:3000/ ") ++ "/event",
            stripTrailingSlash (normalizeSseBaseUrl " http://127.0.0.1:3000/ ") ++ "/sse"]) ∧
      buildOneBot11SseUrlCandidates " http://127.0.0.1:3000/ " =
        ["http://127.0.0.1:3000/", "http://127.0.0.1:3000/_events",
          "http://127.0.0.1:3000/events", "http://127.0.0.1:3000/event",
          "http://127.0.0.1:3000/sse"] :=
  ⟨by rfl,
    (sse_candidates_spec " http://127.0.0.1:3000/ " ⟨"http", "127.0.0.1:3000", "/", ""⟩
      (by rfl)).1,
    by rfl⟩

/-- The SSE client state relevant to reconnection (`OneBot11SSEClient`). -/
structure SseClientState where
  aborted : Bool
  autoReconnect : Bool
  reconnectAttempts : Nat
  maxReconnectAttempts : Nat
  reconnectDelay : Nat
  maxReconnectDelay : Nat
  deriving DecidableEq, Repr

/-- The reconnect-relevant options of the client constructor. -/
structure SseOptions where
  autoReconnect : Option Bool := Option.none
  maxReconnectAttempts : Option Nat := Option.none
  reconnectDelay : Option Nat := Option.none
  maxReconnectDelay : Option Nat := Option.none

/-- Embedding of the constructor defaults (`sse-client.ts`, lines 95–107):
`autoReconnect !== false`, attempt cap 10, base delay 1000 ms, delay cap
30000 ms, counter starting at 0. -/
def mkSseClientState (options : SseOptions) : SseClientState :=
  { aborted := false
    autoReconnect := options.autoReconnect != some false
    reconnectAttempts := 0
    maxReconnectAttempts := options.maxReconnectAttempts.getD 10
    reconnectDelay := options.reconnectDelay.getD 1000
    maxReconnectDelay := options.maxReconnectDelay.getD 30000 }

/-- Outcome of one `attemptReconnect` call: no reconnect, or a backoff wait
followed by the reconnect callback. -/
inductive ReconnectOutcome where
  | halt
  | wait (delayMs : Nat)
  deriving DecidableEq, Repr

/-- Embedding of `attemptReconnect` (`sse-client.ts`, lines 265–286): bail out
when aborted/non-reconnecting or at the attempt cap; otherwise increment the
counter and wait `min(reconnectDelay * 2^(attempts-1), maxReconnectDelay)`. -/
def attemptReconnect (c : SseClientState) : ReconnectOutcome × SseClientState :=
  if c.aborted || !c.autoReconnect then (ReconnectOutcome.halt, c)
  else if c.maxReconnectAttempts ≤ c.reconnectAttempts then (ReconnectOutcome.halt, c)
  else
    (ReconnectOutcome.wait
        (min (c.reconnectDelay * 2 ^ (c.reconnectAttempts + 1 - 1)) c.maxReconnectDelay),
      { c with reconnectAttempts := c.reconnectAttempts + 1 })

/-- The counter reset on a successful connection (`connectAttempt`,
`sse-client.ts` line 172). -/
def onConnectSuccess (c : SseClientState) : SseClientState :=
  { c with reconnectAttempts := 0 }

/-- C9: for the n-th reconnect attempt since the last successful connection
(the counter, reset to 0 on success, holds n−1), the delay is
`min(reconnectDelay * 2^(n-1), maxReconnectDelay)` and the counter becomes n;
once the counter has reached the cap no reconnect is attempted and the state
is unchanged; the constructor defaults are 1000 ms, 30000 ms, cap 10. -/
theorem sse_reconnect_backoff (c : SseClientState) (n : Nat)
    (hab : c.aborted = false) (hauto : c.autoReconnect = true)
    (hn : c.reconnectAttempts + 1 = n)
    (hcap : c.reconnectAttempts < c.maxReconnectAttempts) :
    attemptReconnect c =
        (ReconnectOutcome.wait (min (c.reconnectDelay * 2 ^ (n - 1)) c.maxReconnectDelay),
          { c with reconnectAttempts := n }) ∧
      (∀ c2 : SseClientState, c2.maxReconnectAttempts ≤ c2.reconnectAttempts →
        attemptReconnect c2 = (ReconnectOutcome.halt, c2)) ∧
      (onConnectSuccess c).reconnectAttempts = 0 ∧
      (mkSseClientState {}).reconnectDelay = 1000 ∧
      (mkSseClientState {}).maxReconnectDelay = 30000 ∧
      (mkSseClientState {}).maxReconnectAttempts = 10 := by
  refine ⟨?_, ?_, rfl, rfl, rfl, rfl⟩
  · unfold attemptReconnect
    rw [hab, hauto]
    simp only [Bool.not_true, Bool.or_false, Bool.false_eq_true, if_false]
    rw [if_neg (by omega)]
    rw [← hn]
  · intro c2 hc2
    unfold attemptReconnect
    by_cases h2 : (c2.aborted || !c2.autoReconnect) = true
    · rw [if_pos h2]
    · rw [if_neg h2, if_pos hc2]

/-- Witness for C9: third attempt with default-like parameters — counter 2,
delay 1000·2² = 4000 ms, capped at 30000. -/
theorem sse_reconnect_backoff_witness :
    ((false = false ∧ true = true) ∧ (2 : Nat) + 1 = 3 ∧ (2 : Nat) < 10) ∧
      attemptReconnect ⟨false, true, 2, 10, 1000, 30000⟩ =
        (ReconnectOutcome.wait (min (1000 * 2 ^ (3 - 1)) 30000),
          ⟨false, true, 3, 10, 1000, 30000⟩) ∧
      min (1000 * 2 ^ (3 - 1)) 30000 = 4000 :=
  ⟨⟨⟨rfl, rfl⟩, rfl, by omega⟩,
    (sse_reconnect_backoff ⟨false, true, 2, 10, 1000, 30000⟩ 3 rfl rfl rfl
      (by decide)).1,
    by decide⟩

/-! ## Inbound authorization & dispatch pipeline (`src/inbound.ts`)

SDK collaborators are modelled as oracle inputs (`InboundSdkEnv`): the
pairing store contents, the command-surface checks, the two outputs of
`resolveControlCommandGate`, and the SDK constant
`DEFAULT_GROUP_HISTORY_LIMIT`.  `resolveMentionGatingWithBypass` and the
pending-history helpers are modelled from the spec (§4.12), as their code
lives in the `openclaw/plugin-sdk` package, not in this repository.  The
handler's routing/envelope/dispatch stage is represented by the
`dispatched` outcome; the claims under verification concern only the
policy-gate control flow and the history buffer. -/

/-- Embedding of `normalizeAllowEntry` (`inbound.ts`, lines 35–37): trim,
strip one `onebot11:`/`ob11:` prefix, lowercase. -/
def normalizeAllowEntry (raw : String) : String :=
  jsToLower (normalizeId raw)

/-- Embedding of `normalizeAllowlist` (`inbound.ts`, lines 39–44); entries
are modelled post-`String(entry)` coercion. -/
def normalizeAllowlist (entries : List String) : List String :=
  ((entries.map jsTrim).filter fun e => !e.isEmpty).map normalizeAllowEntry

/-- Worker for JS `Set`-based string deduplication (insertion order kept). -/
def strSetDedupAux : List String → List String → List String
  | [], _ => []
  | x :: rest, seen =>
    if seen.contains x then strSetDedupAux rest seen
    else x :: strSetDedupAux rest (x :: seen)

/-- `Array.from(new Set(l))`. -/
def strSetDedup (l : List String) : List String :=
  strSetDedupAux l []

/-- Embedding of `dedupeAllowlist` (`inbound.ts`, lines 46–48). -/
def dedupeAllowlist (entries : List String) : List String :=
  strSetDedup ((entries.map normalizeAllowEntry).filter fun e => !e.isEmpty)

/-- Embedding of `matchAllowlist` (`inbound.ts`, lines 50–56). -/
def matchAllowlist (senderId : String) (allowFrom : List String) : Bool :=
  allowFrom.contains "*" ||
    allowFrom.any fun entry => normalizeAllowEntry entry == normalizeAllowEntry senderId

/-- Character class `[a-z0-9]` of the extension regexes (the inputs are
already lowercased, so the `/i` flag adds nothing). -/
def isExtChar (c : Char) : Bool :=
  ('a' ≤ c && c ≤ 'z') || ('0' ≤ c && c ≤ '9')

/-- Tail admitted by `(?:[?#].*)?$` — empty, or `?`/`#` followed by
characters `.` can match (no line terminators). -/
def urlExtTailOk : List Char → Bool
  | [] => true
  | '?' :: t => t.all fun c => c ≠ '\n' && c ≠ '\r'
  | '#' :: t => t.all fun c => c ≠ '\n' && c ≠ '\r'
  | _ :: _ => false

/-- Leftmost match of `/\.([a-z0-9]+)(?:[?#].*)?$/` (URL extension). -/
def extMatchUrl : List Char → Option String
  | [] => Option.none
  | '.' :: rest =>
    if !(rest.takeWhile isExtChar).isEmpty &&
        urlExtTailOk (rest.drop (rest.takeWhile isExtChar).length) then
      some ⟨rest.takeWhile isExtChar⟩
    else extMatchUrl rest
  | _ :: rest => extMatchUrl rest

/-- Leftmost match of `/\.([a-z0-9]+)$/` (path extension). -/
def extMatchPath : List Char → Option String
  | [] => Option.none
  | '.' :: rest =>
    if !(rest.takeWhile isExtChar).isEmpty &&
        (rest.drop (rest.takeWhile isExtChar).length).isEmpty then
      some ⟨rest.takeWhile isExtChar⟩
    else extMatchPath rest
  | _ :: rest => extMatchPath rest

/-- The extension-to-MIME table shared by both branches of
`toImageLikeType`. -/
def extMime : Option String → String
  | some "jpg" => "image/jpeg"
  | some "jpeg" => "image/jpeg"
  | some "png" => "image/png"
  | some "gif" => "image/gif"
  | some "webp" => "image/webp"
  | some "bmp" => "image/bmp"
  | _ => "image/unknown"

/-- Embedding of `toImageLikeType` (`inbound.ts`, lines 58–98). -/
def toImageLikeType (value : Option String) : String :=
  match value with
  | Option.none => "image/unknown"
  | some v =>
    if v = "" then "image/unknown"
    else
      if strStartsWith (jsToLower (jsTrim v)) "http://" ||
          strStartsWith (jsToLower (jsTrim v)) "https://" then
        extMime (extMatchUrl (jsToLower (jsTrim v)).data)
      else
        extMime (extMatchPath (jsToLower (jsTrim v)).data)

/-- Embedding of `dedupeStrings` (`inbound.ts`, lines 100–102). -/
def dedupeStrings (values : List String) : List String :=
  strSetDedup (values.filter fun v => !(jsTrim v).isEmpty)

/-- A flattened media entry (`OneBot11MediaEntry`). -/
structure MediaEntry where
  path : Option String := Option.none
  url : Option String := Option.none
  type : Option String := Option.none
  deriving DecidableEq, Repr

/-- Embedding of `collectImageMediaFromEvent` (`inbound.ts`, lines 104–114). -/
def collectImageMediaFromEvent (imageUrls imagePaths : List String) : List MediaEntry :=
  ((dedupeStrings imageUrls).map fun url =>
      { url := some url, type := some (toImageLikeType (some url)) }) ++
    ((dedupeStrings imagePaths).map fun path =>
      { path := some path, type := some (toImageLikeType (some path)) })

/-- A buffered group-history entry (`OneBot11PendingHistoryEntry`). -/
structure PendingHistoryEntry where
  sender : String
  body : String
  timestamp : Int
  messageId : String
  imageUrls : List String
  imagePaths : List String
  aiRelated : Bool
  deriving DecidableEq, Repr

/-- The per-chat history map (`groupHistories`), as an association list. -/
abbrev HistMap : Type :=
  List (String × List PendingHistoryEntry)

/-- `Map.get(key) ?? []`. -/
def histGet (m : HistMap) (k : String) : List PendingHistoryEntry :=
  (List.lookup k m).getD []

/-- `Map.set(key, value)` (replace in place, else append). -/
def histSet (m : HistMap) (k : String) (v : List PendingHistoryEntry) : HistMap :=
  if m.any (fun p => p.1 == k) then
    m.map fun p => if p.1 == k then (k, v) else p
  else
    m ++ [(k, v)]

/-- Last `n` elements of a list (FIFO trim: oldest entries dropped first). -/
def takeLast (n : Nat) (l : List PendingHistoryEntry) : List PendingHistoryEntry :=
  l.drop (l.length - n)

/-- Modelled from the spec: `recordPendingHistoryEntryIfEnabled` from
`openclaw/plugin-sdk` — append the entry (when present and history is
enabled, i.e. the limit is positive) to the chat's buffer, trimmed to the
last `limit` entries, oldest evicted first (§3 `PendingHistoryEntry`,
§4.12 mention gating). -/
def recordPendingHistoryEntryIfEnabled (m : HistMap) (key : String) (limit : Nat)
    (entry : Option PendingHistoryEntry) : HistMap :=
  match entry with
  | Option.none => m
  | some e =>
    if limit = 0 then m
    else histSet m key (takeLast limit (histGet m key ++ [e]))

/-- Modelled from the spec: `clearHistoryEntriesIfEnabled` from
`openclaw/plugin-sdk` — clear the chat's buffer after a dispatch when
history is enabled (§4.12 dispatch). -/
def clearHistoryEntriesIfEnabled (m : HistMap) (key : String) (limit : Nat) : HistMap :=
  if limit = 0 then m else histSet m key []

/-- Result of the mention gate. -/
structure MentionGateResult where
  effectiveWasMentioned : Bool
  shouldSkip : Bool
  deriving DecidableEq, Repr

/-- Modelled from the spec: `resolveMentionGatingWithBypass` from
`openclaw/plugin-sdk` (§4.12 mention gating) — the event satisfies the
mention requirement if it was structurally mentioned OR an authorized
control command bypasses it; a group message failing the requirement while
`requireMention` holds is skipped. -/
def resolveMentionGatingWithBypass (isGroup requireMention canDetectMention
    wasMentioned allowTextCommands hasControlCommand commandAuthorized : Bool) :
    MentionGateResult :=
  let effective := wasMentioned || (allowTextCommands && (hasControlCommand && commandAuthorized))
  { effectiveWasMentioned := effective
    shouldSkip := isGroup && requireMention && canDetectMention && !effective }

/-- SDK oracle inputs of one `handleOneBot11Inbound` call: the pairing-store
contents, the command-surface checks, the two outputs of the SDK's
`resolveControlCommandGate`, whether the pairing upsert reported a fresh
request, and the SDK constant `DEFAULT_GROUP_HISTORY_LIMIT`. -/
structure InboundSdkEnv where
  storeAllowFrom : List String := []
  allowTextCommands : Bool := false
  hasControlCommand : Bool := false
  useAccessGroups : Bool := true
  commandAuthorized : Bool := false
  commandShouldBlock : Bool := false
  pairingCreated : Bool := false
  defaultGroupHistoryLimit : Nat := 0
  deriving Repr

/-- The account-config slice `handleOneBot11Inbound` reads. -/
structure InboundAccountConfig where
  dmPolicy : Option String := Option.none
  groupPolicy : Option String := Option.none
  allowFrom : List String := []
  groupAllowFrom : List String := []
  mentionAllowFrom : List String := []
  requireMention : Option Bool := Option.none
  historyLimit : Option Nat := Option.none
  historyStrategy : Option String := Option.none
  deriving Repr

/-- The normalized event handed to the handler. -/
structure InboundHandlerEvent where
  chatType : ChatType
  chatId : String
  senderId : String
  senderName : Option String := Option.none
  messageId : String := ""
  timestampMs : Int := 0
  text : String
  wasMentioned : Bool := false
  imageUrls : List String := []
  imagePaths : List String := []
  deriving Repr

/-- Effective DM policy (`account.config.dmPolicy ?? "pairing"`). -/
def effDmPolicy (acct : InboundAccountConfig) : String :=
  acct.dmPolicy.getD "pairing"

/-- Effective group policy
(`account.config.groupPolicy ?? defaultGroupPolicy ?? "allowlist"`). -/
def effGroupPolicy (acct : InboundAccountConfig) (defaultGroupPolicy : Option String) : String :=
  acct.groupPolicy.getD (defaultGroupPolicy.getD "allowlist")

/-- Effective DM allow-list (config ∪ pairing store, deduplicated). -/
def effAllowFrom (acct : InboundAccountConfig) (storeAllowFrom : List String) : List String :=
  dedupeAllowlist (normalizeAllowlist acct.allowFrom ++ normalizeAllowlist storeAllowFrom)

/-- Effective group allow-list. -/
def effGroupAllow (acct : InboundAccountConfig) : List String :=
  dedupeAllowlist (normalizeAllowlist acct.groupAllowFrom)

/-- Effective mention allow-list. -/
def effMentionAllow (acct : InboundAccountConfig) : List String :=
  dedupeAllowlist (normalizeAllowlist acct.mentionAllowFrom)

/-- Effective history limit
(`account.config.historyLimit ?? DEFAULT_GROUP_HISTORY_LIMIT`). -/
def effHistoryLimit (env : InboundSdkEnv) (acct : InboundAccountConfig) : Nat :=
  acct.historyLimit.getD env.defaultGroupHistoryLimit

/-- The sender label of a buffered entry
(`senderName?.trim() || "user:<id>"` / `"dm:<id>"`). -/
def historySenderLabel (isGroup : Bool) (event : InboundHandlerEvent) : String :=
  match truthyTrim event.senderName with
  | some sn => sn
  | Option.none => (if isGroup then "user:" else "dm:") ++ event.senderId

/-- The mention gate as invoked by the handler (`inbound.ts`, lines 357–366):
`canDetectMention` and `isGroup` are the group-chat flag, `hasAnyMention`
duplicates `wasMentioned`. -/
def eventMentionGate (env : InboundSdkEnv) (acct : InboundAccountConfig)
    (event : InboundHandlerEvent) : MentionGateResult :=
  resolveMentionGatingWithBypass (event.chatType == ChatType.group)
    (acct.requireMention.getD true) (event.chatType == ChatType.group)
    event.wasMentioned env.allowTextCommands env.hasControlCommand env.commandAuthorized

/-- The pending-history entry built for the current message (`inbound.ts`,
lines 374–385). -/
def buildHistoryEntry (env : InboundSdkEnv) (acct : InboundAccountConfig)
    (event : InboundHandlerEvent) : Option PendingHistoryEntry :=
  if event.chatType = ChatType.group ∧
      (jsTrim event.text ≠ "" ∨
        collectImageMediaFromEvent event.imageUrls event.imagePaths ≠ []) then
    some
      { sender := historySenderLabel true event
        body := if jsTrim event.text ≠ "" then jsTrim event.text else "[Image]"
        timestamp := event.timestampMs
        messageId := event.messageId
        imageUrls := dedupeStrings event.imageUrls
        imagePaths := dedupeStrings event.imagePaths
        aiRelated := (eventMentionGate env acct event).effectiveWasMentioned ||
          (env.allowTextCommands && env.hasControlCommand) }
  else
    Option.none

/-- Outcome of one handler call; every drop branch of the code is one
constructor, and the routing/envelope/dispatch stage (`inbound.ts`,
lines 414–574) is represented by `dispatched` (its history clearing runs in
both of that stage's exits). -/
inductive InboundOutcome where
  | discardedEmpty
  | droppedDmPolicyDisabled
  | droppedDmNotAllowed (pairingReplyAttempted : Bool)
  | droppedGroupPolicyDisabled
  | droppedGroupNotAllowed
  | droppedUnauthorizedCommand
  | droppedNoMention
  | droppedMentionSenderNotAllowed
  | dispatched
  deriving DecidableEq, Repr

/-- Embedding of the policy/history control flow of `handleOneBot11Inbound`
(`inbound.ts`, lines 227–574): the empty-event discard, the DM and group
policy gates, the unauthorized-control-command block, mention gating with
history recording, the mention allow-list gate (also recording), and the
dispatch stage with its history clearing.  The sequential early-return
branches of the source are flattened into one `if`-chain with the chat-kind
conjunct made explicit. -/
def handleOneBot11Inbound (env : InboundSdkEnv) (defaultGroupPolicy : Option String)
    (acct : InboundAccountConfig) (event : InboundHandlerEvent) (histories : HistMap) :
    InboundOutcome × HistMap :=
  if jsTrim event.text = "" ∧
      collectImageMediaFromEvent event.imageUrls event.imagePaths = [] then
    (InboundOutcome.discardedEmpty, histories)
  else if event.chatType ≠ ChatType.group ∧ effDmPolicy acct = "disabled" then
    (InboundOutcome.droppedDmPolicyDisabled, histories)
  else if event.chatType ≠ ChatType.group ∧ effDmPolicy acct ≠ "open" ∧
      matchAllowlist event.senderId (effAllowFrom acct env.storeAllowFrom) = false then
    (InboundOutcome.droppedDmNotAllowed
        (effDmPolicy acct = "pairing" && env.pairingCreated),
      histories)
  else if event.chatType = ChatType.group ∧
      effGroupPolicy acct defaultGroupPolicy = "disabled" then
    (InboundOutcome.droppedGroupPolicyDisabled, histories)
  else if event.chatType = ChatType.group ∧
      effGroupPolicy acct defaultGroupPolicy ≠ "open" ∧
      matchAllowlist event.chatId (effGroupAllow acct) = false then
    (InboundOutcome.droppedGroupNotAllowed, histories)
  else if event.chatType = ChatType.group ∧ env.commandShouldBlock = true then
    (InboundOutcome.droppedUnauthorizedCommand, histories)
  else if event.chatType = ChatType.group ∧ acct.requireMention.getD true = true ∧
      (eventMentionGate env acct event).shouldSkip = true then
    (InboundOutcome.droppedNoMention,
      recordPendingHistoryEntryIfEnabled histories event.chatId
        (effHistoryLimit env acct) (buildHistoryEntry env acct event))
  else if event.chatType = ChatType.group ∧
      (eventMentionGate env acct event).effectiveWasMentioned = true ∧
      effMentionAllow acct ≠ [] ∧
      matchAllowlist event.senderId (effMentionAllow acct) = false then
    (InboundOutcome.droppedMentionSenderNotAllowed,
      recordPendingHistoryEntryIfEnabled histories event.chatId
        (effHistoryLimit env acct) (buildHistoryEntry env acct event))
  else
    (InboundOutcome.dispatched,
      if event.chatType = ChatType.group then
        clearHistoryEntriesIfEnabled histories event.chatId (effHistoryLimit env acct)
      else histories)

/-- Looking up a key in the in-place-replaced map yields the new value. -/
theorem lookup_map_replace (k : String) (v : List PendingHistoryEntry) :
    ∀ m : HistMap, m.any (fun p => p.1 == k) = true →
      List.lookup k (m.map fun p => if p.1 == k then (k, v) else p) = some v := by
  intro m
  induction m with
  | nil => intro h; simp at h
  | cons a m ih =>
    intro h
    obtain ⟨a1, a2⟩ := a
    by_cases hak : a1 = k
    · subst hak
      simp only [List.map_cons, if_pos (by simp : ((a1, a2).1 == a1) = true)]
      exact List.lookup_cons_self
    · have hne : ((a1, a2).1 == k) = false := by simp [hak]
      have hka : (k == a1) = false := by simp [Ne.symm hak]
      simp only [List.map_cons, hne, Bool.false_eq_true, if_false]
      rw [List.lookup_cons]
      simp only [hka, Bool.false_eq_true, if_false]
      refine ih ?_
      simp only [List.any_cons, hne, Bool.false_or] at h
      exact h

/-- Looking up a key appended to a map that lacked it yields the new value. -/
theorem lookup_append_new (k : String) (v : List PendingHistoryEntry) :
    ∀ m : HistMap, m.any (fun p => p.1 == k) = false →
      List.lookup k (m ++ [(k, v)]) = some v := by
  intro m
  induction m with
  | nil =>
    intro _
    simp only [List.nil_append]
    exact List.lookup_cons_self
  | cons a m ih =>
    intro h
    obtain ⟨a1, a2⟩ := a
    simp only [List.any_cons, Bool.or_eq_false_iff] at h
    have hka : (k == a1) = false := by
      have h1 : ((a1, a2).1 == k) = false := h.1
      simp only [beq_eq_false_iff_ne] at h1 ⊢
      exact fun hc => h1 (by simp [hc])
    simp only [List.cons_append]
    rw [List.lookup_cons]
    simp only [hka, Bool.false_eq_true, if_false]
    exact ih h.2

/-- Reading back the key just written into the history map. -/
theorem histGet_histSet (m : HistMap) (k : String) (v : List PendingHistoryEntry) :
    histGet (histSet m k v) k = v := by
  unfold histGet histSet
  by_cases h : m.any (fun p => p.1 == k) = true
  · rw [if_pos h, lookup_map_replace k v m h]
    rfl
  · rw [if_neg h, lookup_append_new k v m (Bool.eq_false_iff.mpr h)]
    rfl

/-- The trimmed buffer never exceeds the limit. -/
theorem takeLast_length_le (n : Nat) (l : List PendingHistoryEntry) :
    (takeLast n l).length ≤ n := by
  unfold takeLast
  rw [List.length_drop]
  omega

/-- With a positive limit the just-appended entry survives the trim as the
newest element. -/
theorem takeLast_concat_getLast (n : Nat) (l : List PendingHistoryEntry)
    (e : PendingHistoryEntry) (h : 0 < n) :
    (takeLast n (l ++ [e])).getLast? = some e := by
  unfold takeLast
  have hlen : (l ++ [e]).length = l.length + 1 := by simp
  rw [hlen]
  have hle : l.length + 1 - n ≤ l.length := by omega
  rw [List.drop_append_of_le_length hle]
  exact List.getLast?_concat _

/-- C3: a group event that reaches the mention gate (non-empty, group policy
satisfied, not command-blocked) with `requireMention` effective and the gate
unsatisfied — no structural mention and no authorized command bypass — is not
dispatched, yet its history entry is appended to that chat's pending buffer,
trimmed to the history limit with the oldest entries evicted first, before
the handler returns. -/
theorem mention_gate_records_history (env : InboundSdkEnv) (dgp : Option String)
    (acct : InboundAccountConfig) (event : InboundHandlerEvent) (histories : HistMap)
    (hgroup : event.chatType = ChatType.group)
    (hnonempty : ¬(jsTrim event.text = "" ∧
      collectImageMediaFromEvent event.imageUrls event.imagePaths = []))
    (hgpd : effGroupPolicy acct dgp ≠ "disabled")
    (hgpa : effGroupPolicy acct dgp = "open" ∨
      matchAllowlist event.chatId (effGroupAllow acct) = true)
    (hblock : env.commandShouldBlock = false)
    (hreq : acct.requireMention.getD true = true)
    (hment : event.wasMentioned = false)
    (hbypass : (env.allowTextCommands && (env.hasControlCommand && env.commandAuthorized))
      = false)
    (hlimit : 0 < effHistoryLimit env acct) :
    ∃ e, buildHistoryEntry env acct event = some e ∧
      handleOneBot11Inbound env dgp acct event histories =
        (InboundOutcome.droppedNoMention,
          histSet histories event.chatId
            (takeLast (effHistoryLimit env acct) (histGet histories event.chatId ++ [e]))) ∧
      histGet (handleOneBot11Inbound env dgp acct event histories).2 event.chatId
        = takeLast (effHistoryLimit env acct) (histGet histories event.chatId ++ [e]) ∧
      (histGet (handleOneBot11Inbound env dgp acct event histories).2 event.chatId).length
        ≤ effHistoryLimit env acct ∧
      (histGet (handleOneBot11Inbound env dgp acct event histories).2 event.chatId).getLast?
        = some e := by
  have hskip : (eventMentionGate env acct event).shouldSkip = true := by
    unfold eventMentionGate resolveMentionGatingWithBypass
    simp [hgroup, hreq, hment, hbypass]
  obtain ⟨e, he⟩ : ∃ e, buildHistoryEntry env acct event = some e := by
    unfold buildHistoryEntry
    rw [if_pos ⟨hgroup, by
      rcases Decidable.not_and_iff_or_not.mp hnonempty with h | h
      · exact Or.inl h
      · exact Or.inr h⟩]
    exact ⟨_, rfl⟩
  have hmain : handleOneBot11Inbound env dgp acct event histories =
      (InboundOutcome.droppedNoMention,
        histSet histories event.chatId
          (takeLast (effHistoryLimit env acct) (histGet histories event.chatId ++ [e]))) := by
    unfold handleOneBot11Inbound
    rw [if_neg hnonempty]
    rw [if_neg (by rintro ⟨h, _⟩; exact h hgroup)]
    rw [if_neg (by rintro ⟨h, _, _⟩; exact h hgroup)]
    rw [if_neg (by rintro ⟨_, h⟩; exact hgpd h)]
    rw [if_neg (by
      rintro ⟨_, hne, hf⟩
      rcases hgpa with h | h
      · exact hne h
      · rw [h] at hf; exact absurd hf (by simp))]
    rw [if_neg (by rintro ⟨_, h⟩; rw [hblock] at h; exact absurd h (by simp))]
    rw [if_pos ⟨hgroup, hreq, hskip⟩]
    rw [he]
    show (InboundOutcome.droppedNoMention,
        if effHistoryLimit env acct = 0 then histories
        else histSet histories event.chatId
          (takeLast (effHistoryLimit env acct) (histGet histories event.chatId ++ [e]))) = _
    rw [if_neg (by omega)]
  refine ⟨e, he, hmain, ?_, ?_, ?_⟩
  · rw [hmain]
    exact histGet_histSet _ _ _
  · rw [hmain]
    simp only
    rw [histGet_histSet]
    exact takeLast_length_le _ _
  · rw [hmain]
    simp only
    rw [histGet_histSet]
    exact takeLast_concat_getLast _ _ _ hlimit

/-- Handler environment of the C3 witness: no commands, pairing store empty,
SDK default history limit 5. -/
def c3Env : InboundSdkEnv :=
  { defaultGroupHistoryLimit := 5 }

/-- Account of the C3 witness: open group policy, mention required. -/
def c3Acct : InboundAccountConfig :=
  { groupPolicy := some "open", requireMention := some true }

/-- Event of the C3 witness: a plain group message without a mention. -/
def c3Event : InboundHandlerEvent :=
  { chatType := ChatType.group, chatId := "g1", senderId := "42", messageId := "m1"
    timestampMs := 1000, text := "hello group", wasMentioned := false }

/-- Witness for C3: the concrete non-mention group message is dropped but
recorded into the (initially empty) buffer of chat `"g1"`. -/
theorem mention_gate_records_history_witness :
    (c3Event.chatType = ChatType.group ∧
      ¬(jsTrim c3Event.text = "" ∧
        collectImageMediaFromEvent c3Event.imageUrls c3Event.imagePaths = []) ∧
      effGroupPolicy c3Acct Option.none ≠ "disabled" ∧
      (effGroupPolicy c3Acct Option.none = "open" ∨
        matchAllowlist c3Event.chatId (effGroupAllow c3Acct) = true) ∧
      c3Env.commandShouldBlock = false ∧
      c3Acct.requireMention.getD true = true ∧
      c3Event.wasMentioned = false ∧
      (c3Env.allowTextCommands && (c3Env.hasControlCommand && c3Env.commandAuthorized))
        = false ∧
      0 < effHistoryLimit c3Env c3Acct) ∧
    (∃ e, buildHistoryEntry c3Env c3Acct c3Event = some e ∧
      handleOneBot11Inbound c3Env Option.none c3Acct c3Event [] =
        (InboundOutcome.droppedNoMention,
          histSet [] c3Event.chatId
            (takeLast (effHistoryLimit c3Env c3Acct)
              (histGet [] c3Event.chatId ++ [e]))) ∧
      histGet (handleOneBot11Inbound c3Env Option.none c3Acct c3Event []).2 c3Event.chatId
        = takeLast (effHistoryLimit c3Env c3Acct) (histGet [] c3Event.chatId ++ [e]) ∧
      (histGet (handleOneBot11Inbound c3Env Option.none c3Acct c3Event []).2
          c3Event.chatId).length ≤ effHistoryLimit c3Env c3Acct ∧
      (histGet (handleOneBot11Inbound c3Env Option.none c3Acct c3Event []).2
          c3Event.chatId).getLast? = some e) :=
  ⟨⟨rfl, by decide, by decide, Or.inl rfl, rfl, rfl, rfl, rfl, by decide⟩,
    mention_gate_records_history c3Env Option.none c3Acct c3Event [] rfl (by decide)
      (by decide) (Or.inl rfl) rfl rfl rfl rfl (by decide)⟩

end OneBot11
